import Mathlib

/-!
Verification development for the `transit-parser` repository.

The repository ships its core (`transit_parser._core`: the TXC parser, the
TXC→GTFS converter, the eager/lazy GTFS feed layer and the filtering API) as
a compiled extension whose sources are not under `src/`; only the Python test
suite, benchmarks and a re-export shim are present.  Following the rules for
code missing from `src/`, every definition of the core below is modelled from
the specification (`spec.md`); each such definition carries a doc comment
starting with `Modelled from the spec:`.

Conventions used throughout the model:
* machine integers are `Nat` (all quantities involved are non-negative);
* times are seconds from midnight, durations are seconds;
* GTFS coordinate cells (`stop_lat`/`stop_lon`, shape point coordinates) are
  kept as their decimal text, never interpreted as floating point numbers —
  no claim below depends on coordinate arithmetic;
* fallible operations return `Option`/`Except`.
-/

/-! ## Dates -/

/-- Modelled from the spec: a calendar date (`YYYYMMDD` in GTFS files,
`YYYY-MM-DD` for filter queries).  The core stores typed date values. -/
structure TpDate where
  year : Nat
  month : Nat
  day : Nat
deriving DecidableEq

/-- Modelled from the spec: chronological comparison of dates
(the core compares typed date values; lexicographic on (year, month, day)). -/
def TpDate.le (a b : TpDate) : Bool :=
  a.year < b.year ||
    (a.year == b.year &&
      (a.month < b.month || (a.month == b.month && a.day ≤ b.day)))

/-- Modelled from the spec: day-of-week of a Gregorian date, computed with
Zeller's congruence (the core obtains it from its date library).
Encoding: `0 = Saturday, 1 = Sunday, 2 = Monday, …, 6 = Friday`. -/
def TpDate.dayOfWeek (dt : TpDate) : Nat :=
  let m := if dt.month < 3 then dt.month + 12 else dt.month
  let y := if dt.month < 3 then dt.year - 1 else dt.year
  let K := y % 100
  let J := y / 100
  (dt.day + (13 * (m + 1)) / 5 + K + K / 4 + J / 4 + 5 * J) % 7

theorem dayOfWeek_monday : (TpDate.mk 2025 1 6).dayOfWeek = 2 := by
  decide

theorem dayOfWeek_saturday : (TpDate.mk 2025 1 4).dayOfWeek = 0 := by
  decide

/-! ## GTFS data model

Modelled from the spec (§3 "GTFS entities"): typed entities matching the
GTFS reference, restricted to the columns the specification's invariants and
the test surface mention. -/

/-- Modelled from the spec: a GTFS agency row. -/
structure Agency where
  id : String
  name : String
  url : String
  timezone : String
deriving DecidableEq

/-- Modelled from the spec: a GTFS stop row.  Coordinates may be absent and
are kept as decimal text. -/
structure Stop where
  id : String
  name : String
  lat : Option String
  lon : Option String
deriving DecidableEq

/-- Modelled from the spec: a GTFS route row. -/
structure Route where
  id : String
  short_name : String
  long_name : String
  route_type : Nat
deriving DecidableEq

/-- Modelled from the spec: a GTFS trip row. -/
structure Trip where
  id : String
  route_id : String
  service_id : String
  headsign : String
deriving DecidableEq

/-- Modelled from the spec: a GTFS stop_time row; times are non-negative
seconds from midnight, possibly exceeding 24:00:00. -/
structure StopTime where
  trip_id : String
  arrival : Nat
  departure : Nat
  stop_id : String
  stop_sequence : Nat
deriving DecidableEq

/-- Modelled from the spec: a GTFS calendar row. -/
structure Calendar where
  service_id : String
  monday : Bool
  tuesday : Bool
  wednesday : Bool
  thursday : Bool
  friday : Bool
  saturday : Bool
  sunday : Bool
  start_date : TpDate
  end_date : TpDate
deriving DecidableEq

/-- Modelled from the spec: a GTFS calendar_dates row;
`exception_type ∈ {1, 2}` (1 adds, 2 removes). -/
structure CalendarDate where
  service_id : String
  date : TpDate
  exception_type : Nat
deriving DecidableEq

/-- Modelled from the spec: one point of an aggregated shape. -/
structure ShapePoint where
  lat : String
  lon : String
  sequence : Nat
deriving DecidableEq

/-- Modelled from the spec: an aggregated shape `{ shape_id, points[] }`. -/
structure Shape where
  id : String
  points : List ShapePoint
deriving DecidableEq

/-- Modelled from the spec: an in-memory GTFS feed, owner of all its
entity vectors. -/
structure GtfsFeed where
  agencies : List Agency
  stops : List Stop
  routes : List Route
  trips : List Trip
  stop_times : List StopTime
  calendars : List Calendar
  calendar_dates : List CalendarDate
  shapes : List Shape
deriving DecidableEq

def GtfsFeed.agency_count (f : GtfsFeed) : Nat := f.agencies.length
def GtfsFeed.stop_count (f : GtfsFeed) : Nat := f.stops.length
def GtfsFeed.route_count (f : GtfsFeed) : Nat := f.routes.length
def GtfsFeed.trip_count (f : GtfsFeed) : Nat := f.trips.length
def GtfsFeed.stop_time_count (f : GtfsFeed) : Nat := f.stop_times.length

/-! ## Filter layer: active services -/

/-- Modelled from the spec: the weekday flag of a calendar row for a given
day-of-week (in the `TpDate.dayOfWeek` encoding, `0 = Saturday`). -/
def Calendar.weekdayFlag (c : Calendar) (dow : Nat) : Bool :=
  match dow with
  | 0 => c.saturday
  | 1 => c.sunday
  | 2 => c.monday
  | 3 => c.tuesday
  | 4 => c.wednesday
  | 5 => c.thursday
  | _ => c.friday

/-- Modelled from the spec: whether a `calendar_dates` row
`(service_id, date, exception_type)` exists. -/
def hasException (cds : List CalendarDate) (sid : String) (d : TpDate)
    (ty : Nat) : Bool :=
  cds.any fun cd =>
    cd.service_id == sid && cd.date == d && cd.exception_type == ty

/-- Modelled from the spec (§4.5): a service is active on date D iff
`start_date ≤ D ≤ end_date`, the weekday flag for D is true, and no
`calendar_dates` row `(service_id, D, 2)` exists; or a row
`(service_id, D, 1)` exists overriding the weekday test. -/
def serviceActiveOn (cds : List CalendarDate) (d : TpDate)
    (c : Calendar) : Bool :=
  (TpDate.le c.start_date d && TpDate.le d c.end_date &&
      c.weekdayFlag d.dayOfWeek &&
      !hasException cds c.service_id d 2) ||
    hasException cds c.service_id d 1

/-- Modelled from the spec: `active_services_on` over a typed date. -/
def active_services_on (f : GtfsFeed) (d : TpDate) : List Calendar :=
  f.calendars.filter (serviceActiveOn f.calendar_dates d)

/-! ## Sample GTFS feed

Modelled from the spec (scenario S1 and the fixture facts quoted by the
tests): 2 agencies, 5 stops, 3 routes, 5 trips, 16 stop_times, 2 calendars
("weekday": Mon–Fri, "weekend": Sat+Sun, both valid through 2025),
3 calendar_dates (two of them on July 4), 1 shape. -/

def sampleCalendars : List Calendar :=
  [ { service_id := "weekday", monday := true, tuesday := true,
      wednesday := true, thursday := true, friday := true,
      saturday := false, sunday := false,
      start_date := ⟨2025, 1, 1⟩, end_date := ⟨2025, 12, 31⟩ },
    { service_id := "weekend", monday := false, tuesday := false,
      wednesday := false, thursday := false, friday := false,
      saturday := true, sunday := true,
      start_date := ⟨2025, 1, 1⟩, end_date := ⟨2025, 12, 31⟩ } ]

def sampleCalendarDates : List CalendarDate :=
  [ { service_id := "weekday", date := ⟨2025, 7, 4⟩, exception_type := 2 },
    { service_id := "weekend", date := ⟨2025, 7, 4⟩, exception_type := 1 },
    { service_id := "weekday", date := ⟨2025, 12, 25⟩, exception_type := 2 } ]

def sampleStopTimesTrip1 : List StopTime :=
  [ { trip_id := "trip_1", arrival := 28800, departure := 28800,
      stop_id := "stop_1", stop_sequence := 1 },
    { trip_id := "trip_1", arrival := 29100, departure := 29160,
      stop_id := "stop_2", stop_sequence := 2 },
    { trip_id := "trip_1", arrival := 29400, departure := 29460,
      stop_id := "stop_3", stop_sequence := 3 },
    { trip_id := "trip_1", arrival := 29700, departure := 29700,
      stop_id := "stop_4", stop_sequence := 4 } ]

def sampleStopTimesRest : List StopTime :=
  [ { trip_id := "trip_2", arrival := 32400, departure := 32400,
      stop_id := "stop_1", stop_sequence := 1 },
    { trip_id := "trip_2", arrival := 32700, departure := 32700,
      stop_id := "stop_2", stop_sequence := 2 },
    { trip_id := "trip_2", arrival := 33000, departure := 33000,
      stop_id := "stop_3", stop_sequence := 3 },
    { trip_id := "trip_2", arrival := 33300, departure := 33300,
      stop_id := "stop_4", stop_sequence := 4 },
    { trip_id := "trip_3", arrival := 36000, departure := 36000,
      stop_id := "stop_2", stop_sequence := 1 },
    { trip_id := "trip_3", arrival := 36300, departure := 36300,
      stop_id := "stop_3", stop_sequence := 2 },
    { trip_id := "trip_3", arrival := 36600, departure := 36600,
      stop_id := "stop_4", stop_sequence := 3 },
    { trip_id := "trip_3", arrival := 36900, departure := 36900,
      stop_id := "stop_5", stop_sequence := 4 },
    { trip_id := "trip_4", arrival := 39600, departure := 39600,
      stop_id := "stop_1", stop_sequence := 1 },
    { trip_id := "trip_4", arrival := 39900, departure := 39900,
      stop_id := "stop_3", stop_sequence := 2 },
    { trip_id := "trip_5", arrival := 43200, departure := 43200,
      stop_id := "stop_4", stop_sequence := 1 },
    { trip_id := "trip_5", arrival := 43500, departure := 43500,
      stop_id := "stop_5", stop_sequence := 2 } ]

def sampleFeed : GtfsFeed where
  agencies :=
    [ { id := "agency_1", name := "Test Transit Agency",
        url := "https://example.com", timezone := "America/New_York" },
      { id := "agency_2", name := "Second Transit Agency",
        url := "https://example.org", timezone := "America/New_York" } ]
  stops :=
    [ { id := "stop_1", name := "Main Street Station",
        lat := some "40.712776", lon := some "-74.005974" },
      { id := "stop_2", name := "Oak Avenue",
        lat := some "40.714541", lon := some "-74.007081" },
      { id := "stop_3", name := "Pine Street",
        lat := some "40.716324", lon := some "-74.008215" },
      { id := "stop_4", name := "Central Hub",
        lat := some "40.718112", lon := some "-74.009377" },
      { id := "stop_5", name := "Platform 1",
        lat := some "40.718112", lon := some "-74.009377" } ]
  routes :=
    [ { id := "route_1", short_name := "1", long_name := "Main Line",
        route_type := 3 },
      { id := "route_2", short_name := "2", long_name := "Oak Line",
        route_type := 3 },
      { id := "route_3", short_name := "3", long_name := "Express",
        route_type := 3 } ]
  trips :=
    [ { id := "trip_1", route_id := "route_1", service_id := "weekday",
        headsign := "Northbound to Central" },
      { id := "trip_2", route_id := "route_1", service_id := "weekday",
        headsign := "Northbound to Central" },
      { id := "trip_3", route_id := "route_2", service_id := "weekday",
        headsign := "Oak Loop" },
      { id := "trip_4", route_id := "route_3", service_id := "weekend",
        headsign := "Express" },
      { id := "trip_5", route_id := "route_3", service_id := "weekend",
        headsign := "Express" } ]
  stop_times := sampleStopTimesTrip1 ++ sampleStopTimesRest
  calendars := sampleCalendars
  calendar_dates := sampleCalendarDates
  shapes :=
    [ { id := "shape_1",
        points :=
          [ { lat := "40.712776", lon := "-74.005974", sequence := 1 },
            { lat := "40.714541", lon := "-74.007081", sequence := 2 } ] } ]

theorem sampleFeed_stop_time_count : sampleFeed.stop_time_count = 16 := by
  decide

theorem sampleFeed_active_weekday :
    ((active_services_on sampleFeed ⟨2025, 1, 6⟩).map
        Calendar.service_id) = ["weekday"] := by decide

theorem sampleFeed_active_weekend :
    ((active_services_on sampleFeed ⟨2025, 1, 4⟩).map
        Calendar.service_id) = ["weekend"] := by decide

/-! ## Date-string parsing (filter query input) -/

/-- Modelled from the spec: the structured error raised for an invalid
date string: `InvalidDateError { date_string, expected_format }`. -/
structure InvalidDateError where
  date_string : String
  expected_format : String
deriving DecidableEq

def isLeapYear (y : Nat) : Bool :=
  (y % 4 == 0 && y % 100 != 0) || y % 400 == 0

def daysInMonth (y m : Nat) : Nat :=
  if m == 2 then (if isLeapYear y then 29 else 28)
  else if m == 4 || m == 6 || m == 9 || m == 11 then 30
  else 31

def digitVal (c : Char) : Nat := c.toNat - 48

/-- Modelled from the spec: parse a `YYYY-MM-DD` date string; `none` exactly
when the string is not a valid calendar date in that format. -/
def parseDateString (s : String) : Option TpDate :=
  match s.data with
  | [y1, y2, y3, y4, h1, m1, m2, h2, d1, d2] =>
    if y1.isDigit && y2.isDigit && y3.isDigit && y4.isDigit &&
        h1 == '-' && m1.isDigit && m2.isDigit && h2 == '-' &&
        d1.isDigit && d2.isDigit then
      let y := ((digitVal y1 * 10 + digitVal y2) * 10 + digitVal y3) * 10 +
        digitVal y4
      let m := digitVal m1 * 10 + digitVal m2
      let d := digitVal d1 * 10 + digitVal d2
      if 1 ≤ m && m ≤ 12 && 1 ≤ d && d ≤ daysInMonth y m then
        some ⟨y, m, d⟩
      else none
    else none
  | _ => none

/-- Modelled from the spec: `active_services_on` over a string argument;
invalid strings surface `InvalidDateError` (the typed-date overload
`active_services_on` is total and raises nothing). -/
def active_services_on_str (f : GtfsFeed) (s : String) :
    Except InvalidDateError (List Calendar) :=
  match parseDateString s with
  | some d => Except.ok (active_services_on f d)
  | none =>
    Except.error { date_string := s, expected_format := "YYYY-MM-DD" }

/-! ## Claim C1 -/

theorem hasException_iff (cds : List CalendarDate) (sid : String)
    (d : TpDate) (ty : Nat) :
    hasException cds sid d ty = true ↔
      ∃ cd ∈ cds,
        cd.service_id = sid ∧ cd.date = d ∧ cd.exception_type = ty := by
  simp [hasException, List.any_eq_true, and_assoc]

/-- C1: for every loaded feed and valid date D, `active_services_on D`
returns exactly the services s with `s.start_date ≤ D ≤ s.end_date`, the
weekday flag of s for D's day-of-week true, and no removal exception
`(s.service_id, D, 2)`, or with an addition exception `(s.service_id, D, 1)`
overriding the weekday test; in particular on the sample feed,
2025-01-06 (a Monday) yields "weekday" but not "weekend", and 2025-01-04
(a Saturday) yields "weekend" but not "weekday". -/
theorem active_services_law :
    (∀ (f : GtfsFeed) (d : TpDate) (c : Calendar),
      c ∈ active_services_on f d ↔
        c ∈ f.calendars ∧
          ((TpDate.le c.start_date d = true ∧ TpDate.le d c.end_date = true ∧
              c.weekdayFlag d.dayOfWeek = true ∧
              ¬ ∃ cd ∈ f.calendar_dates, cd.service_id = c.service_id ∧
                cd.date = d ∧ cd.exception_type = 2) ∨
            ∃ cd ∈ f.calendar_dates, cd.service_id = c.service_id ∧
              cd.date = d ∧ cd.exception_type = 1)) ∧
    "weekday" ∈ (active_services_on sampleFeed ⟨2025, 1, 6⟩).map
      Calendar.service_id ∧
    "weekend" ∉ (active_services_on sampleFeed ⟨2025, 1, 6⟩).map
      Calendar.service_id ∧
    "weekend" ∈ (active_services_on sampleFeed ⟨2025, 1, 4⟩).map
      Calendar.service_id ∧
    "weekday" ∉ (active_services_on sampleFeed ⟨2025, 1, 4⟩).map
      Calendar.service_id := by
  refine ⟨fun f d c => ?_, by decide, by decide, by decide, by decide⟩
  rw [active_services_on, List.mem_filter, serviceActiveOn]
  rw [Bool.or_eq_true, Bool.and_eq_true, Bool.and_eq_true, Bool.and_eq_true,
    Bool.not_eq_true']
  rw [← Bool.not_eq_true (hasException f.calendar_dates c.service_id d 2)]
  rw [hasException_iff, hasException_iff]
  tauto

/-- Witness for C1: the sample feed's "weekday" calendar is active on
Monday 2025-01-06, by the service-active law. -/
theorem active_services_law_witness :
    { service_id := "weekday", monday := true, tuesday := true,
      wednesday := true, thursday := true, friday := true,
      saturday := false, sunday := false,
      start_date := ⟨2025, 1, 1⟩, end_date := ⟨2025, 12, 31⟩ : Calendar } ∈
      active_services_on sampleFeed ⟨2025, 1, 6⟩ :=
  (active_services_law.1 sampleFeed ⟨2025, 1, 6⟩ _).mpr
    ⟨by decide, Or.inl ⟨by decide, by decide, by decide, by decide⟩⟩

/-! ## Claim C9 -/

/-- C9: a string that is not a valid `YYYY-MM-DD` date makes
`active_services_on` fail with `InvalidDateError` carrying the argument
verbatim in `date_string` and `"YYYY-MM-DD"` in `expected_format`; a valid
string yields the (error-free) result of the typed-date query. -/
theorem invalid_date_error_law :
    ∀ (f : GtfsFeed) (s : String),
      (parseDateString s = none →
        active_services_on_str f s =
          Except.error
            { date_string := s, expected_format := "YYYY-MM-DD" }) ∧
      (∀ d, parseDateString s = some d →
        active_services_on_str f s =
          Except.ok (active_services_on f d)) := by
  intro f s
  constructor
  · intro h
    simp [active_services_on_str, h]
  · intro d h
    simp [active_services_on_str, h]

/-- Witness for C9: `"not-a-valid-date"` on the sample feed produces the
`InvalidDateError` with the expected fields, and `"2025-01-06"` succeeds. -/
theorem invalid_date_error_law_witness :
    active_services_on_str sampleFeed "not-a-valid-date" =
      Except.error
        { date_string := "not-a-valid-date",
          expected_format := "YYYY-MM-DD" } ∧
    active_services_on_str sampleFeed "2025-01-06" =
      Except.ok (active_services_on sampleFeed ⟨2025, 1, 6⟩) :=
  ⟨(invalid_date_error_law sampleFeed "not-a-valid-date").1 (by decide),
   (invalid_date_error_law sampleFeed "2025-01-06").2 ⟨2025, 1, 6⟩
     (by decide)⟩

/-! ## Filter layer: stop_times_for_trip -/

/-- Modelled from the spec: the order used by the `stop_times_by_trip`
index (`sorted by stop_sequence`). -/
def seqLe (a b : StopTime) : Prop := a.stop_sequence ≤ b.stop_sequence

instance : DecidableRel seqLe := fun a b =>
  Nat.decLe a.stop_sequence b.stop_sequence

instance : IsTotal StopTime seqLe :=
  ⟨fun a b => Nat.le_total a.stop_sequence b.stop_sequence⟩

instance : IsTrans StopTime seqLe :=
  ⟨fun _ _ _ => Nat.le_trans⟩

/-- Modelled from the spec: `stop_times_for_trip(id)` — the trip's
stop_time rows, sorted by `stop_sequence`. -/
def stop_times_for_trip (f : GtfsFeed) (t : String) : List StopTime :=
  (f.stop_times.filter fun st => st.trip_id == t).insertionSort seqLe

/-- A feed whose only trip has stop_times whose arrival times decrease as
`stop_sequence` increases.  Nothing in loading forbids this: the reader
parses rows as given. -/
def cexFeedC7 : GtfsFeed where
  agencies := []
  stops := []
  routes := []
  trips := [{ id := "t", route_id := "r", service_id := "s", headsign := "" }]
  stop_times :=
    [ { trip_id := "t", arrival := 100, departure := 100,
        stop_id := "a", stop_sequence := 1 },
      { trip_id := "t", arrival := 50, departure := 50,
        stop_id := "b", stop_sequence := 2 } ]
  calendars := []
  calendar_dates := []
  shapes := []

/-! ## Claim C7 -/

/-- Counterexample to C7 as stated: on `cexFeedC7` (a loadable feed whose
trip "t" has arrival 100 at sequence 1 and arrival 50 at sequence 2),
`stop_times_for_trip "t"` does not have non-decreasing arrival times. -/
theorem stop_times_for_trip_claim_cex :
    ¬ ((stop_times_for_trip cexFeedC7 "t").Pairwise
        (fun a b => a.stop_sequence < b.stop_sequence) ∧
      (stop_times_for_trip cexFeedC7 "t").Pairwise
        (fun a b => a.arrival ≤ b.arrival)) := by
  decide

theorem pairwise_seq_le_of_sorted (f : GtfsFeed) (t : String) :
    (stop_times_for_trip f t).Pairwise
      (fun a b => a.stop_sequence ≤ b.stop_sequence) :=
  List.sorted_insertionSort seqLe
    (f.stop_times.filter fun st => st.trip_id == t)

/-- C7 amended: `stop_times_for_trip(t)` returns the trip's rows sorted by
`stop_sequence`; when the trip's rows carry pairwise-distinct
`stop_sequence` values and arrival times monotone in `stop_sequence` (the
GTFS stop-time invariants), the returned rows have strictly increasing
`stop_sequence` and non-decreasing `arrival_time`. -/
theorem stop_times_for_trip_sorted (f : GtfsFeed) (t : String)
    (hseq : (f.stop_times.filter fun st => st.trip_id == t).Pairwise
      (fun a b => a.stop_sequence ≠ b.stop_sequence))
    (harr : ∀ a ∈ f.stop_times, ∀ b ∈ f.stop_times,
      a.trip_id = t → b.trip_id = t →
      a.stop_sequence ≤ b.stop_sequence → a.arrival ≤ b.arrival) :
    (stop_times_for_trip f t).Pairwise
      (fun a b => a.stop_sequence < b.stop_sequence) ∧
    (stop_times_for_trip f t).Pairwise
      (fun a b => a.arrival ≤ b.arrival) := by
  have hle := pairwise_seq_le_of_sorted f t
  have hperm : List.Perm (stop_times_for_trip f t)
      (f.stop_times.filter fun st => st.trip_id == t) :=
    List.perm_insertionSort seqLe _
  have hne : (stop_times_for_trip f t).Pairwise
      (fun a b => a.stop_sequence ≠ b.stop_sequence) :=
    (hperm.pairwise_iff fun h => h.symm).mpr hseq
  constructor
  · exact (hle.and hne).imp fun h => Nat.lt_of_le_of_ne h.1 h.2
  · refine hle.imp_of_mem ?_
    intro a b ha hb hab
    have ha' := hperm.mem_iff.mp ha
    have hb' := hperm.mem_iff.mp hb
    rw [List.mem_filter] at ha' hb'
    exact harr a ha'.1 b hb'.1 (by simpa using ha'.2) (by simpa using hb'.2)
      hab

/-- Witness for C7 amended: the sample feed's "trip_1" satisfies the
stop-time invariants, and its query result is strictly sequence-increasing
with non-decreasing arrivals. -/
theorem stop_times_for_trip_sorted_witness :
    (stop_times_for_trip sampleFeed "trip_1").Pairwise
      (fun a b => a.stop_sequence < b.stop_sequence) ∧
    (stop_times_for_trip sampleFeed "trip_1").Pairwise
      (fun a b => a.arrival ≤ b.arrival) :=
  stop_times_for_trip_sorted sampleFeed "trip_1" (by decide) (by decide)

/-! ## Decimal rendering of naturals (used by id minting and the writer) -/

def digitChar (d : Nat) : Char := Char.ofNat (48 + d)

/-- Fuel-based big-endian decimal digits accumulator (structurally
recursive, hence kernel-evaluable). -/
def natToStrAux : Nat → Nat → List Char → List Char
  | 0, _, acc => acc
  | fuel + 1, n, acc =>
    if n < 10 then digitChar n :: acc
    else natToStrAux fuel (n / 10) (digitChar (n % 10) :: acc)

/-- Decimal rendering of a natural number. -/
def natToStr (n : Nat) : String := ⟨natToStrAux (n + 1) n []⟩

/-! ## Generic key-based ordering and deduplication -/

/-- Code-point lexicographic strict comparison of char lists: the order in
which the converter sorts ids.  Written as a structural boolean so the
kernel can evaluate it. -/
def strLtChars : List Char → List Char → Bool
  | [], [] => false
  | [], _ :: _ => true
  | _ :: _, [] => false
  | a :: as, b :: bs =>
    if a.toNat < b.toNat then true
    else if b.toNat < a.toNat then false
    else strLtChars as bs

/-- Lexicographic strict order on strings. -/
def strLt (a b : String) : Bool := strLtChars a.data b.data

theorem strLtChars_irrefl : ∀ x : List Char, strLtChars x x = false := by
  intro x
  induction x with
  | nil => rfl
  | cons a as ih => simp [strLtChars, ih]

theorem charToNat_inj {a b : Char} (h : a.toNat = b.toNat) : a = b := by
  have h2 := Char.ofNat_toNat a
  rw [h, Char.ofNat_toNat] at h2
  exact h2.symm

theorem strLtChars_trans : ∀ x y z : List Char,
    strLtChars x y = true → strLtChars y z = true →
    strLtChars x z = true := by
  intro x
  induction x with
  | nil =>
    intro y z hxy hyz
    cases y with
    | nil => exact absurd hxy (by simp [strLtChars])
    | cons b bs =>
      cases z with
      | nil => exact absurd hyz (by simp [strLtChars])
      | cons c cs => simp [strLtChars]
  | cons a as ih =>
    intro y z hxy hyz
    cases y with
    | nil => exact absurd hxy (by simp [strLtChars])
    | cons b bs =>
      cases z with
      | nil => exact absurd hyz (by simp [strLtChars])
      | cons c cs =>
        simp only [strLtChars] at hxy hyz ⊢
        by_cases hab : a.toNat < b.toNat
        · by_cases hbc : b.toNat < c.toNat
          · have h : a.toNat < c.toNat := by omega
            simp [h]
          · by_cases hcb : c.toNat < b.toNat
            · simp [hbc, hcb] at hyz
            · have h : a.toNat < c.toNat := by omega
              simp [h]
        · by_cases hba : b.toNat < a.toNat
          · simp [hab, hba] at hxy
          · by_cases hbc : b.toNat < c.toNat
            · have h : a.toNat < c.toNat := by omega
              simp [h]
            · by_cases hcb : c.toNat < b.toNat
              · simp [hbc, hcb] at hyz
              · have h1 : ¬ a.toNat < c.toNat := by omega
                have h2 : ¬ c.toNat < a.toNat := by omega
                simp only [hab, hba, if_false, if_neg] at hxy
                simp only [hbc, hcb, if_false, if_neg] at hyz
                simp only [h1, h2, if_false, if_neg]
                exact ih bs cs hxy hyz

theorem strLtChars_trichotomy : ∀ x y : List Char,
    strLtChars x y = true ∨ strLtChars y x = true ∨ x = y := by
  intro x
  induction x with
  | nil =>
    intro y
    cases y with
    | nil => exact Or.inr (Or.inr rfl)
    | cons b bs => exact Or.inl (by simp [strLtChars])
  | cons a as ih =>
    intro y
    cases y with
    | nil => exact Or.inr (Or.inl (by simp [strLtChars]))
    | cons b bs =>
      rcases Nat.lt_trichotomy a.toNat b.toNat with h | h | h
      · exact Or.inl (by simp [strLtChars, h])
      · have hab : a = b := charToNat_inj h
        subst hab
        rcases ih bs with h1 | h1 | h1
        · exact Or.inl (by simp [strLtChars, h1])
        · exact Or.inr (Or.inl (by simp [strLtChars, h1]))
        · exact Or.inr (Or.inr (by rw [h1]))
      · exact Or.inr (Or.inl (by simp [strLtChars, h]))

theorem strLt_asymm {a b : String} (h1 : strLt a b = true)
    (h2 : strLt b a = true) : False := by
  have h := strLtChars_trans a.data b.data a.data h1 h2
  rw [strLtChars_irrefl] at h
  exact Bool.false_ne_true h

/-- Order by a `String` key (`keyLe f a b` iff `f a ≤ f b`
lexicographically). -/
def keyLe {α : Type} (f : α → String) (a b : α) : Prop :=
  strLt (f b) (f a) = false

instance {α : Type} (f : α → String) : DecidableRel (keyLe f) := fun a b =>
  (inferInstance : Decidable (strLt (f b) (f a) = false))

instance {α : Type} (f : α → String) : IsTotal α (keyLe f) := by
  constructor
  intro a b
  by_cases h : strLt (f b) (f a) = false
  · exact Or.inl h
  · refine Or.inr ?_
    rw [Bool.not_eq_false] at h
    rw [keyLe, Bool.eq_false_iff]
    intro h2
    exact strLt_asymm h h2

instance {α : Type} (f : α → String) : IsTrans α (keyLe f) := by
  constructor
  intro a b c hab hbc
  rw [keyLe, Bool.eq_false_iff] at hab hbc ⊢
  intro hca
  rcases strLtChars_trichotomy (f b).data (f c).data with h | h | h
  · exact hab (strLtChars_trans _ _ _ h hca)
  · exact hbc h
  · apply hab
    show strLtChars (f b).data (f a).data = true
    rw [h]
    exact hca

/-- Order lexicographically by a `String` key then a `Nat` key. -/
def keyLe2 {α : Type} (f : α → String) (g : α → Nat) (a b : α) : Prop :=
  strLt (f a) (f b) = true ∨ (f a = f b ∧ g a ≤ g b)

instance {α : Type} (f : α → String) (g : α → Nat) :
    DecidableRel (keyLe2 f g) := fun a b =>
  (inferInstance :
    Decidable (strLt (f a) (f b) = true ∨ (f a = f b ∧ g a ≤ g b)))

theorem strings_eq_of_data_eq {a b : String} (h : a.data = b.data) :
    a = b := by
  cases a
  cases b
  exact congrArg String.mk h

instance {α : Type} (f : α → String) (g : α → Nat) :
    IsTotal α (keyLe2 f g) := by
  constructor
  intro a b
  rcases strLtChars_trichotomy (f a).data (f b).data with h | h | h
  · exact Or.inl (Or.inl h)
  · exact Or.inr (Or.inl h)
  · have he : f a = f b := strings_eq_of_data_eq h
    rcases Nat.le_total (g a) (g b) with hg | hg
    · exact Or.inl (Or.inr ⟨he, hg⟩)
    · exact Or.inr (Or.inr ⟨he.symm, hg⟩)

instance {α : Type} (f : α → String) (g : α → Nat) :
    IsTrans α (keyLe2 f g) := by
  constructor
  intro a b c hab hbc
  rcases hab with hab | ⟨hab, hab2⟩
  · rcases hbc with hbc | ⟨hbc, _⟩
    · exact Or.inl (strLtChars_trans _ _ _ hab hbc)
    · refine Or.inl ?_
      show strLtChars (f a).data (f c).data = true
      rw [← hbc]
      exact hab
  · rcases hbc with hbc | ⟨hbc, hbc2⟩
    · refine Or.inl ?_
      show strLtChars (f a).data (f c).data = true
      rw [hab]
      exact hbc
    · exact Or.inr ⟨hab.trans hbc, hab2.trans hbc2⟩

/-- Deduplicate keeping the first occurrence of each `String` key
(structurally recursive). -/
def dedupByKeyAux {α : Type} (key : α → String) (seen : List String) :
    List α → List α
  | [] => []
  | a :: rest =>
    if seen.contains (key a) then dedupByKeyAux key seen rest
    else a :: dedupByKeyAux key (key a :: seen) rest

def dedupByKey {α : Type} (key : α → String) (l : List α) : List α :=
  dedupByKeyAux key [] l

/-- Deduplicate keeping the first occurrence of each value. -/
def dedupEqAux {α : Type} [DecidableEq α] (seen : List α) :
    List α → List α
  | [] => []
  | a :: rest =>
    if a ∈ seen then dedupEqAux seen rest
    else a :: dedupEqAux (a :: seen) rest

def dedupEq {α : Type} [DecidableEq α] (l : List α) : List α :=
  dedupEqAux [] l

/-! ## TXC data model

Modelled from the spec (§3 "TXC entities").  Bank-holiday operations and
the conversion region only select externally-defined holiday date sets; the
model carries explicit special-day operations instead, which exercise the
same `calendar_dates` emission path. -/

/-- Modelled from the spec: a TXC Operator; display name falls back from
short name to trading name to code. -/
structure TxcOperator where
  id : String
  code : String
  short_name : Option String := none
  trading_name : Option String := none
  license_number : Option String := none
deriving DecidableEq

/-- Modelled from the spec: a TXC StopPoint, identified by ATCO code;
coordinates may be absent and are kept as decimal text. -/
structure TxcStopPoint where
  atco_code : String
  common_name : Option String := none
  locality : Option String := none
  lon : Option String := none
  lat : Option String := none
  stop_type : Option String := none
deriving DecidableEq

/-- Modelled from the spec: a line owned by a Service. -/
structure TxcLine where
  id : String
  name : String
deriving DecidableEq

/-- Modelled from the spec: the closed sum of recognized
`regular_day_type` values. -/
inductive RegularDayType where
  | mondayToFriday
  | mondayToSaturday
  | weekend
  | daily
  | holidaysOnly
  | daySet (monday tuesday wednesday thursday friday saturday sunday : Bool)
deriving DecidableEq

/-- Modelled from the spec: one special-day operation
(`operates = true` adds the date, `false` removes it). -/
structure SpecialDay where
  date : TpDate
  operates : Bool
deriving DecidableEq

/-- Modelled from the spec: an OperatingProfile. -/
structure OperatingProfile where
  regular_day_type : RegularDayType
  special_days : List SpecialDay := []
deriving DecidableEq

/-- Modelled from the spec: a timing link of a JourneyPatternSection;
`run_time` and the optional `wait_time` dwell are seconds. -/
structure TimingLink where
  id : String
  from_stop : String
  to_stop : String
  run_time : Nat
  wait_time : Option Nat := none
deriving DecidableEq

/-- Modelled from the spec: an ordered sequence of timing links. -/
structure JourneyPatternSection where
  id : String
  links : List TimingLink
deriving DecidableEq

/-- Modelled from the spec: a JourneyPattern; expansion of `section_refs`
yields the full ordered stop list. -/
structure JourneyPattern where
  id : String
  section_refs : List String
  direction : String := "outbound"
  destination_display : Option String := none
deriving DecidableEq

/-- Modelled from the spec: a TXC Service. -/
structure TxcService where
  service_code : String
  lines : List TxcLine
  operator_ref : String
  start_date : TpDate
  end_date : Option TpDate := none
  mode : String := "bus"
  operating_profile : OperatingProfile
  journey_patterns : List JourneyPattern
  description : Option String := none
deriving DecidableEq

/-- Modelled from the spec: a VehicleJourney; `departure_time` is seconds
from midnight. -/
structure VehicleJourney where
  code : String
  departure_time : Nat
  journey_pattern_ref : String
  service_ref : String
  line_ref : String
  operator_ref : String
  operating_profile : Option OperatingProfile := none
deriving DecidableEq

/-- Modelled from the spec: a parsed TXC document. -/
structure TxcDocument where
  schema_version : String
  filename : String := ""
  operators : List TxcOperator
  services : List TxcService
  stop_points : List TxcStopPoint
  journey_pattern_sections : List JourneyPatternSection
  vehicle_journeys : List VehicleJourney
deriving DecidableEq

def TxcDocument.operator_count (d : TxcDocument) : Nat := d.operators.length
def TxcDocument.service_count (d : TxcDocument) : Nat := d.services.length
def TxcDocument.stop_point_count (d : TxcDocument) : Nat :=
  d.stop_points.length
def TxcDocument.vehicle_journey_count (d : TxcDocument) : Nat :=
  d.vehicle_journeys.length
def TxcDocument.journey_pattern_section_count (d : TxcDocument) : Nat :=
  d.journey_pattern_sections.length

/-! ## TXC → GTFS converter

Modelled from the spec (§4.4), step by step.  The stable service-id mint
uses the profile fingerprint itself where the core uses
`sha1(fingerprint)[:8]`: the fingerprint string is injective on profiles,
which preserves the distinctness behavior the algorithm relies on. -/

structure ConversionOptions where
  include_shapes : Bool := false
  calendar_start : Option TpDate := none
  calendar_end : Option TpDate := none
  default_agency_timezone : Option String := none
deriving DecidableEq

structure ConversionWarning where
  kind : String
  entity_type : String
  entity_id : String
  reason : String
deriving DecidableEq

structure ConversionStats where
  agencies : Nat
  stops : Nat
  routes : Nat
  trips : Nat
  stop_times : Nat
  skipped_vehicle_journeys : Nat
deriving DecidableEq

/-- Modelled from the spec: display name of an operator (short name, then
trading name, then code). -/
def TxcOperator.displayName (op : TxcOperator) : String :=
  op.short_name.getD (op.trading_name.getD op.code)

/-- Modelled from the spec: `map_mode` (bus=3, tram=0, rail=2, metro=1,
ferry=4, trolleybus=11, coach=3; unknown modes are treated as bus). -/
def mapMode (m : String) : Nat :=
  if m == "tram" then 0
  else if m == "metro" then 1
  else if m == "rail" then 2
  else if m == "ferry" then 4
  else if m == "trolleybus" then 11
  else 3

structure WeekFlags where
  mo : Bool
  tu : Bool
  we : Bool
  th : Bool
  fr : Bool
  sa : Bool
  su : Bool
deriving DecidableEq

/-- Modelled from the spec: weekday flags of a `regular_day_type`. -/
def dayFlags : RegularDayType → WeekFlags
  | .mondayToFriday => ⟨true, true, true, true, true, false, false⟩
  | .mondayToSaturday => ⟨true, true, true, true, true, true, false⟩
  | .weekend => ⟨false, false, false, false, false, true, true⟩
  | .daily => ⟨true, true, true, true, true, true, true⟩
  | .holidaysOnly => ⟨false, false, false, false, false, false, false⟩
  | .daySet m t w th f s su => ⟨m, t, w, th, f, s, su⟩

def boolDigit (b : Bool) : String := if b then "1" else "0"

def dateStamp (d : TpDate) : String :=
  natToStr d.year ++ "-" ++ natToStr d.month ++ "-" ++ natToStr d.day

/-- Modelled from the spec: canonical fingerprint of an OperatingProfile. -/
def profileFingerprint (p : OperatingProfile) : String :=
  let fl := dayFlags p.regular_day_type
  boolDigit fl.mo ++ boolDigit fl.tu ++ boolDigit fl.we ++ boolDigit fl.th ++
    boolDigit fl.fr ++ boolDigit fl.sa ++ boolDigit fl.su ++
    String.join (p.special_days.map fun sd =>
      ";" ++ dateStamp sd.date ++ ":" ++ boolDigit sd.operates)

/-- Modelled from the spec: the minted GTFS service id of a profile. -/
def calendarServiceId (p : OperatingProfile) : String :=
  "calendar_" ++ profileFingerprint p

def dateMax (a b : TpDate) : TpDate := if TpDate.le a b then b else a
def dateMin (a b : TpDate) : TpDate := if TpDate.le a b then a else b

def farFuture : TpDate := ⟨2099, 12, 31⟩

/-- Modelled from the spec: the service's operating window clamped to
`options.calendar_start/end` when provided. -/
def calendarWindow (svc : TxcService) (opts : ConversionOptions) :
    TpDate × TpDate :=
  let s0 := svc.start_date
  let e0 := svc.end_date.getD (opts.calendar_end.getD farFuture)
  let s := match opts.calendar_start with
    | some cs => dateMax s0 cs
    | none => s0
  let e := match opts.calendar_end with
    | some ce => dateMin e0 ce
    | none => e0
  (s, e)

def mkCalendar (p : OperatingProfile) (svc : TxcService)
    (opts : ConversionOptions) : Calendar :=
  let w := calendarWindow svc opts
  let fl := dayFlags p.regular_day_type
  { service_id := calendarServiceId p,
    monday := fl.mo, tuesday := fl.tu, wednesday := fl.we,
    thursday := fl.th, friday := fl.fr, saturday := fl.sa, sunday := fl.su,
    start_date := w.1, end_date := w.2 }

/-- Modelled from the spec: special-day operations become `calendar_dates`
rows with `exception_type=1` (adds) or `2` (removes). -/
def mkCalendarDates (p : OperatingProfile) : List CalendarDate :=
  p.special_days.map fun sd =>
    { service_id := calendarServiceId p, date := sd.date,
      exception_type := if sd.operates then 1 else 2 }

def findService (doc : TxcDocument) (code : String) : Option TxcService :=
  doc.services.find? fun s => s.service_code == code

def findLine (svc : TxcService) (lid : String) : Option TxcLine :=
  svc.lines.find? fun l => l.id == lid

def findPattern (svc : TxcService) (pid : String) : Option JourneyPattern :=
  svc.journey_patterns.find? fun p => p.id == pid

def findSection (doc : TxcDocument) (sid : String) :
    Option JourneyPatternSection :=
  doc.journey_pattern_sections.find? fun s => s.id == sid

def findStopPoint (doc : TxcDocument) (code : String) :
    Option TxcStopPoint :=
  doc.stop_points.find? fun sp => sp.atco_code == code

/-- Modelled from the spec: expanding a journey pattern concatenates its
sections' timing links in order; an unresolved section ref fails. -/
def expandPattern (doc : TxcDocument) (jp : JourneyPattern) :
    Option (List TimingLink) :=
  (jp.section_refs.mapM (findSection doc)).map fun secs =>
    (secs.map JourneyPatternSection.links).flatten

/-- A vehicle journey together with its resolved referents. -/
structure RetainedVj where
  vj : VehicleJourney
  svc : TxcService
  line : TxcLine
  jp : JourneyPattern
  links : List TimingLink
deriving DecidableEq

/-- Modelled from the spec: reference linking; a vehicle journey with any
dangling ref is dropped (and warned about). -/
def resolveVj (doc : TxcDocument) (vj : VehicleJourney) :
    Option RetainedVj :=
  match findService doc vj.service_ref with
  | none => none
  | some svc =>
    match findLine svc vj.line_ref with
    | none => none
    | some line =>
      match findPattern svc vj.journey_pattern_ref with
      | none => none
      | some jp =>
        match expandPattern doc jp with
        | none => none
        | some links => some ⟨vj, svc, line, jp, links⟩

def retainedVjs (doc : TxcDocument) : List RetainedVj :=
  doc.vehicle_journeys.filterMap (resolveVj doc)

def vjProfile (r : RetainedVj) : OperatingProfile :=
  r.vj.operating_profile.getD r.svc.operating_profile

def txcRouteId (svc : TxcService) (line : TxcLine) : String :=
  svc.service_code ++ ":" ++ line.id

/-- Modelled from the spec: dwell of a timing link (zero unless a
`WaitTime` is specified on the link). -/
def dwellOf (l : TimingLink) : Nat := l.wait_time.getD 0

/-- Modelled from the spec: accumulate run times from the trip's departure
along the links; each traversed link contributes one row at its `to` stop
(`arrival = cumulative run time`, `departure = arrival + dwell`). -/
def buildRows (tripId : String) : Nat → Nat → List TimingLink →
    List StopTime
  | _, _, [] => []
  | seq, cum, l :: ls =>
    let arr := cum + l.run_time
    { trip_id := tripId, arrival := arr, departure := arr + dwellOf l,
        stop_id := l.to_stop, stop_sequence := seq } ::
      buildRows tripId (seq + 1) arr ls

/-- Modelled from the spec (§4.4 step 6): stop_times of one trip — the
stop at `links[0].from` at the trip's departure time, then one row per
link. -/
def buildStopTimes (tripId : String) (dep : Nat)
    (links : List TimingLink) : List StopTime :=
  match links with
  | [] => []
  | l :: _ =>
    { trip_id := tripId, arrival := dep, departure := dep,
        stop_id := l.from_stop, stop_sequence := 1 } ::
      buildRows tripId 2 dep links

def dateKeyNat (d : TpDate) : Nat := (d.year * 100 + d.month) * 100 + d.day

/-- Modelled from the spec: the ordered stop list of an expanded pattern:
`[links[0].from, links[0].to, links[1].to, …]`. -/
def pathCodes (links : List TimingLink) : List String :=
  match links with
  | [] => []
  | l :: _ => l.from_stop :: links.map TimingLink.to_stop

def convertAgencies (doc : TxcDocument) (opts : ConversionOptions) :
    List Agency :=
  (doc.operators.map fun op =>
    { id := op.id, name := op.displayName, url := "",
      timezone :=
        opts.default_agency_timezone.getD "Europe/London" : Agency }
    ).insertionSort (keyLe Agency.id)

def convertStops (doc : TxcDocument) (rs : List RetainedVj) : List Stop :=
  ((dedupEq ((rs.map fun r =>
      (r.links.map fun l => [l.from_stop, l.to_stop]).flatten).flatten)).map
    fun code =>
      match findStopPoint doc code with
      | some sp =>
        { id := code, name := sp.common_name.getD code,
          lat := sp.lat, lon := sp.lon : Stop }
      | none => { id := code, name := code, lat := none, lon := none }
    ).insertionSort (keyLe Stop.id)

def convertRoutes (doc : TxcDocument) : List Route :=
  (dedupByKey Route.id ((doc.services.map fun svc =>
      svc.lines.map fun line =>
        { id := txcRouteId svc line, short_name := line.name,
          long_name := "", route_type := mapMode svc.mode : Route }).flatten)
    ).insertionSort (keyLe Route.id)

def convertCalendars (rs : List RetainedVj) (opts : ConversionOptions) :
    List Calendar :=
  (dedupByKey Calendar.service_id
      (rs.map fun r => mkCalendar (vjProfile r) r.svc opts)
    ).insertionSort (keyLe Calendar.service_id)

def convertCalendarDates (rs : List RetainedVj) : List CalendarDate :=
  (dedupEq ((rs.map fun r => mkCalendarDates (vjProfile r)).flatten)
    ).insertionSort (keyLe2 CalendarDate.service_id fun cd =>
      dateKeyNat cd.date)

def convertTrips (rs : List RetainedVj) : List Trip :=
  (rs.map fun r =>
    { id := r.vj.code, route_id := txcRouteId r.svc r.line,
      service_id := calendarServiceId (vjProfile r),
      headsign :=
        r.jp.destination_display.getD (r.svc.description.getD "") : Trip }
    ).insertionSort (keyLe Trip.id)

def convertStopTimes (rs : List RetainedVj) : List StopTime :=
  ((rs.map fun r =>
      buildStopTimes r.vj.code r.vj.departure_time r.links).flatten
    ).insertionSort (keyLe2 StopTime.trip_id StopTime.stop_sequence)

def numberPoints (coords : List (String × String)) : List ShapePoint :=
  ((List.range coords.length).zip coords).map fun p =>
    { lat := p.2.1, lon := p.2.2, sequence := p.1 + 1 }

/-- Modelled from the spec: one shape per unique journey pattern, points
from the stop coordinates in path order (`shape_dist_traveled`, a
floating-point haversine accumulation, is outside the model). -/
def convertShapes (doc : TxcDocument) (rs : List RetainedVj)
    (opts : ConversionOptions) : List Shape :=
  if opts.include_shapes then
    (dedupByKey Shape.id (rs.map fun r =>
        { id := "shape_" ++ r.jp.id,
          points := numberPoints ((pathCodes r.links).filterMap fun code =>
            match findStopPoint doc code with
            | some sp =>
              match sp.lat, sp.lon with
              | some la, some lo => some (la, lo)
              | _, _ => none
            | none => none) : Shape })
      ).insertionSort (keyLe Shape.id)
  else []

structure ConversionResult where
  feed : GtfsFeed
  stats : ConversionStats
  warnings : List ConversionWarning
deriving DecidableEq

/-- Modelled from the spec (§4.4): the deterministic TXC→GTFS pipeline;
every output collection is sorted by its primary id before emission. -/
def txcToGtfs (doc : TxcDocument) (opts : ConversionOptions) :
    ConversionResult :=
  let rs := retainedVjs doc
  let agencies := convertAgencies doc opts
  let stops := convertStops doc rs
  let routes := convertRoutes doc
  let trips := convertTrips rs
  let stop_times := convertStopTimes rs
  let calendars := convertCalendars rs opts
  let calendar_dates := convertCalendarDates rs
  let shapes := convertShapes doc rs opts
  { feed :=
      { agencies := agencies, stops := stops, routes := routes,
        trips := trips, stop_times := stop_times, calendars := calendars,
        calendar_dates := calendar_dates, shapes := shapes },
    stats :=
      { agencies := agencies.length, stops := stops.length,
        routes := routes.length, trips := trips.length,
        stop_times := stop_times.length,
        skipped_vehicle_journeys :=
          doc.vehicle_journeys.length - rs.length },
    warnings :=
      ((doc.vehicle_journeys.filter fun vj =>
          (resolveVj doc vj).isNone).map fun vj =>
        { kind := "dangling_reference", entity_type := "VehicleJourney",
          entity_id := vj.code, reason := "unresolved reference" }) ++
      ((stops.filter fun s => s.lat.isNone || s.lon.isNone).map fun s =>
        { kind := "missing_coordinates", entity_type := "Stop",
          entity_id := s.id, reason := "stop emitted without coordinates" }) }

/-! ## Claim C3 -/

/-- Sum of the `run_time` durations of the first `i` links. -/
def runPrefix (links : List TimingLink) (i : Nat) : Nat :=
  ((links.take i).map TimingLink.run_time).sum

/-- The stop id at position `i` of the expanded sequence
`[links[0].from, links[0].to, links[1].to, …]`, as the claim words it. -/
def specStopId (links : List TimingLink) : Nat → String
  | 0 =>
    match links with
    | [] => ""
    | l :: _ => l.from_stop
  | i + 1 =>
    match links[i]? with
    | some l => l.to_stop
    | none => ""

/-- The dwell at position `i`: zero at the origin, else the `WaitTime` of
the link arriving at the position (defaulting to zero). -/
def specDwell (links : List TimingLink) : Nat → Nat
  | 0 => 0
  | i + 1 =>
    match links[i]? with
    | some l => dwellOf l
    | none => 0

/-- The stop_time rows exactly as claim C3 describes them: position `i`
carries stop `specStopId i`, `arrival = departure_time + runPrefix i`,
`departure = arrival + specDwell i`, and `stop_sequence = i + 1`. -/
def stopTimesSpec (tripId : String) (dep : Nat)
    (links : List TimingLink) : List StopTime :=
  (List.range (links.length + 1)).map fun i =>
    { trip_id := tripId, stop_sequence := i + 1,
      stop_id := specStopId links i,
      arrival := dep + runPrefix links i,
      departure := dep + runPrefix links i + specDwell links i }

theorem runPrefix_cons (l : TimingLink) (ls : List TimingLink) (i : Nat) :
    runPrefix (l :: ls) (i + 1) = l.run_time + runPrefix ls i := by
  simp [runPrefix, List.take_succ_cons]

theorem buildRows_spec (tripId : String) :
    ∀ (links : List TimingLink) (seq cum : Nat),
      buildRows tripId seq cum links =
        (List.range links.length).map fun i =>
          { trip_id := tripId, stop_sequence := seq + i,
            stop_id :=
              match links[i]? with
              | some l => l.to_stop
              | none => "",
            arrival := cum + runPrefix links (i + 1),
            departure := cum + runPrefix links (i + 1) +
              (match links[i]? with
                | some l => dwellOf l
                | none => 0) } := by
  intro links
  induction links with
  | nil => intro seq cum; simp [buildRows]
  | cons l ls ih =>
    intro seq cum
    rw [buildRows, List.length_cons, List.range_succ_eq_map, List.map_cons,
      List.map_map, ih (seq + 1) (cum + l.run_time)]
    congr 1
    · simp [runPrefix]
    · apply List.map_congr_left
      intro i _
      simp only [Function.comp_apply, Nat.succ_eq_add_one,
        List.getElem?_cons_succ, runPrefix_cons, StopTime.mk.injEq,
        true_and, and_true]
      all_goals omega

/-- C3: for a retained vehicle journey whose pattern expands to the
non-empty link list `links`, the emitted stop_times are exactly
`stopTimesSpec`: stops `[links[0].from, links[0].to, links[1].to, …]`
(`n+1` of them), arrival at each position the trip departure plus the
accumulated run times of the preceding links, departure that arrival plus
the link's dwell (zero unless a `WaitTime` was given), and stop_sequence
starting at 1 and incrementing by one. -/
theorem buildStopTimes_spec (tripId : String) (dep : Nat)
    (links : List TimingLink) (h : links ≠ []) :
    buildStopTimes tripId dep links = stopTimesSpec tripId dep links ∧
    (buildStopTimes tripId dep links).length = links.length + 1 := by
  match links, h with
  | l :: ls, _ =>
    have hmain : buildStopTimes tripId dep (l :: ls) =
        stopTimesSpec tripId dep (l :: ls) := by
      rw [buildStopTimes, stopTimesSpec, List.length_cons,
        List.range_succ_eq_map, List.map_cons, List.map_map,
        buildRows_spec tripId (l :: ls) 2 dep]
      congr 1
      apply List.map_congr_left
      intro i _
      simp only [Function.comp_apply, Nat.succ_eq_add_one,
        specStopId, specDwell, StopTime.mk.injEq, true_and, and_true]
      all_goals omega
    refine ⟨hmain, ?_⟩
    rw [hmain]
    simp [stopTimesSpec]

/-- Witness for C3 at a concrete two-link pattern with a `WaitTime` on the
first link. -/
theorem buildStopTimes_spec_witness :
    buildStopTimes "t" 100
        [⟨"L1", "A", "B", 300, some 60⟩, ⟨"L2", "B", "C", 240, none⟩] =
      stopTimesSpec "t" 100
        [⟨"L1", "A", "B", 300, some 60⟩, ⟨"L2", "B", "C", 240, none⟩] ∧
    (buildStopTimes "t" 100
        [⟨"L1", "A", "B", 300, some 60⟩, ⟨"L2", "B", "C", 240, none⟩]
      ).length = 3 :=
  buildStopTimes_spec "t" 100
    [⟨"L1", "A", "B", 300, some 60⟩, ⟨"L2", "B", "C", 240, none⟩]
    (by decide)

/-! ## Sample TXC document

Modelled from the spec (scenario S2): 1 operator "Sample Bus", 1 service
`SVC001` with one line, 4 stop points `0100BRP90310…0100BRP90313`,
5 vehicle journeys over one journey pattern made of 2 journey-pattern
sections, schema version "2.4", `MondayToFriday` operating profile. -/

def sampleLinks1 : List TimingLink :=
  [ ⟨"TL1", "0100BRP90310", "0100BRP90311", 300, none⟩,
    ⟨"TL2", "0100BRP90311", "0100BRP90312", 300, none⟩ ]

def sampleLinks2 : List TimingLink :=
  [ ⟨"TL3", "0100BRP90312", "0100BRP90313", 300, none⟩ ]

def sampleVj (code : String) (dep : Nat) : VehicleJourney :=
  { code := code, departure_time := dep, journey_pattern_ref := "JP1",
    service_ref := "SVC001", line_ref := "L1", operator_ref := "OP1" }

def sampleTxcDoc : TxcDocument where
  schema_version := "2.4"
  filename := "sample_service.xml"
  operators := [{ id := "OP1", code := "SB", short_name := some "Sample Bus" }]
  services :=
    [ { service_code := "SVC001",
        lines := [{ id := "L1", name := "1" }],
        operator_ref := "OP1",
        start_date := ⟨2025, 1, 1⟩,
        end_date := some ⟨2025, 12, 31⟩,
        operating_profile := { regular_day_type := .mondayToFriday },
        journey_patterns :=
          [ { id := "JP1", section_refs := ["JPS1", "JPS2"],
              destination_display := some "Bus Station" } ] } ]
  stop_points :=
    [ { atco_code := "0100BRP90310", common_name := some "High Street" },
      { atco_code := "0100BRP90311", common_name := some "Market Square" },
      { atco_code := "0100BRP90312", common_name := some "City Centre" },
      { atco_code := "0100BRP90313", common_name := some "Bus Station" } ]
  journey_pattern_sections :=
    [ ⟨"JPS1", sampleLinks1⟩, ⟨"JPS2", sampleLinks2⟩ ]
  vehicle_journeys :=
    [ sampleVj "VJ1" 25200, sampleVj "VJ2" 28800, sampleVj "VJ3" 32400,
      sampleVj "VJ4" 36000, sampleVj "VJ5" 61200 ]

theorem sampleTxcDoc_operator_count : sampleTxcDoc.operator_count = 1 := by
  decide

theorem sampleTxcDoc_vj_count : sampleTxcDoc.vehicle_journey_count = 5 := by
  decide

theorem sampleTxcDoc_jps_count :
    sampleTxcDoc.journey_pattern_section_count = 2 := by decide

/-! ## Claim C6 -/

/-- C6: converting the sample TXC document with default options yields at
least one agency, at least one route, exactly 5 trips (one per vehicle
journey), exactly 4 stops, and a calendar with Monday–Friday true and
Saturday/Sunday false (from the `MondayToFriday` day type). -/
theorem convert_sample_counts :
    1 ≤ (txcToGtfs sampleTxcDoc {}).feed.agencies.length ∧
    1 ≤ (txcToGtfs sampleTxcDoc {}).feed.routes.length ∧
    (txcToGtfs sampleTxcDoc {}).feed.trips.length = 5 ∧
    (txcToGtfs sampleTxcDoc {}).feed.stops.length = 4 ∧
    ((txcToGtfs sampleTxcDoc {}).feed.calendars.any fun c =>
      c.monday && c.tuesday && c.wednesday && c.thursday && c.friday &&
        !c.saturday && !c.sunday) = true := by
  decide

/-! ## Decimal parsing and its round trip with `natToStr` -/

def isDigitCh (c : Char) : Bool := 48 ≤ c.toNat && c.toNat ≤ 57

/-- Big-endian decimal value accumulator. -/
def parseValAux (a : Nat) : List Char → Nat
  | [] => a
  | c :: cs => parseValAux (a * 10 + (c.toNat - 48)) cs

/-- Parse a non-empty all-digit string as a natural number. -/
def strToNat (s : String) : Option Nat :=
  if s.data ≠ [] ∧ s.data.all isDigitCh then some (parseValAux 0 s.data)
  else none

/-- Specification-side decimal digits (well-founded recursion; used only in
proofs, never evaluated by the kernel). -/
def natDigits (n : Nat) : List Char :=
  if h : n < 10 then [digitChar n]
  else
    have : n / 10 < n := Nat.div_lt_self (by omega) (by omega)
    natDigits (n / 10) ++ [digitChar (n % 10)]
termination_by n

theorem natToStrAux_eq_natDigits :
    ∀ (fuel n : Nat) (acc : List Char), n < fuel →
      natToStrAux fuel n acc = natDigits n ++ acc := by
  intro fuel
  induction fuel with
  | zero => intro n acc h; omega
  | succ fuel ih =>
    intro n acc h
    rw [natToStrAux]
    by_cases h10 : n < 10
    · rw [if_pos h10, natDigits, dif_pos h10]
      rfl
    · rw [if_neg h10, natDigits, dif_neg h10, ih (n / 10) _ (by omega)]
      simp

theorem natToStr_data (n : Nat) : (natToStr n).data = natDigits n := by
  show natToStrAux (n + 1) n [] = natDigits n
  rw [natToStrAux_eq_natDigits (n + 1) n [] (by omega), List.append_nil]

theorem digitChar_toNat (d : Nat) (h : d < 10) :
    (digitChar d).toNat = 48 + d := by
  interval_cases d <;> decide

theorem digitChar_isDigit (d : Nat) (h : d < 10) :
    isDigitCh (digitChar d) = true := by
  interval_cases d <;> decide

theorem natDigits_ne_nil (n : Nat) : natDigits n ≠ [] := by
  rw [natDigits]
  by_cases h : n < 10
  · rw [dif_pos h]
    simp
  · rw [dif_neg h]
    simp

theorem natDigits_all_digits :
    ∀ n : Nat, (natDigits n).all isDigitCh = true := by
  intro n
  induction n using Nat.strong_induction_on with
  | _ n ih =>
    rw [natDigits]
    by_cases h : n < 10
    · rw [dif_pos h]
      simp [digitChar_isDigit n h]
    · rw [dif_neg h]
      have h1 := ih (n / 10) (Nat.div_lt_self (by omega) (by omega))
      have h2 := digitChar_isDigit (n % 10) (by omega)
      simp [List.all_append, h1, h2]

theorem parseValAux_append (a : Nat) (xs ys : List Char) :
    parseValAux a (xs ++ ys) = parseValAux (parseValAux a xs) ys := by
  induction xs generalizing a with
  | nil => rfl
  | cons c cs ih =>
    show parseValAux (a * 10 + (c.toNat - 48)) (cs ++ ys) =
      parseValAux (parseValAux a (c :: cs)) ys
    rw [ih]
    rfl

theorem parseValAux_nil (a : Nat) : parseValAux a [] = a := rfl

theorem parseValAux_cons (a : Nat) (c : Char) (cs : List Char) :
    parseValAux a (c :: cs) = parseValAux (a * 10 + (c.toNat - 48)) cs := rfl

theorem parseValAux_natDigits :
    ∀ n a : Nat, parseValAux a (natDigits n) =
      a * 10 ^ (natDigits n).length + n := by
  intro n
  induction n using Nat.strong_induction_on with
  | _ n ih =>
    intro a
    rw [natDigits]
    by_cases h : n < 10
    · rw [dif_pos h, parseValAux_cons, parseValAux_nil,
        digitChar_toNat n h, List.length_singleton, Nat.pow_one]
      omega
    · rw [dif_neg h, parseValAux_append,
        ih (n / 10) (Nat.div_lt_self (by omega) (by omega)) a,
        parseValAux_cons, parseValAux_nil,
        digitChar_toNat (n % 10) (by omega),
        List.length_append, List.length_singleton]
      rw [Nat.pow_succ]
      have hdm : 10 * (n / 10) + n % 10 = n := Nat.div_add_mod n 10
      have expand : (a * 10 ^ (natDigits (n / 10)).length + n / 10) * 10 +
          (48 + n % 10 - 48) =
          a * (10 ^ (natDigits (n / 10)).length * 10) +
            (10 * (n / 10) + n % 10) := by
        have h3 : 48 + n % 10 - 48 = n % 10 := by omega
        rw [h3]
        ring
      rw [expand, hdm]

theorem strToNat_natToStr (n : Nat) : strToNat (natToStr n) = some n := by
  rw [strToNat]
  rw [if_pos]
  · rw [natToStr_data, parseValAux_natDigits n 0]
    simp
  · rw [natToStr_data]
    exact ⟨natDigits_ne_nil n, natDigits_all_digits n⟩

/-- Digit-length bound: `natDigits n` has at most `k` digits when
`n < 10 ^ k` (for `k ≥ 1`). -/
theorem natDigits_length_le :
    ∀ n k : Nat, 1 ≤ k → n < 10 ^ k → (natDigits n).length ≤ k := by
  intro n
  induction n using Nat.strong_induction_on with
  | _ n ih =>
    intro k hk hn
    rw [natDigits]
    by_cases h : n < 10
    · rw [dif_pos h]
      simpa using hk
    · rw [dif_neg h]
      rw [List.length_append, List.length_singleton]
      have hk2 : 2 ≤ k := by
        by_contra hc
        have hke : k = 1 := by omega
        subst hke
        simp at hn
        omega
      have h1 : 10 ^ (k - 1) * 10 = 10 ^ k := by
        rw [← Nat.pow_succ]
        congr 1
        omega
      have h2 : n / 10 < 10 ^ (k - 1) := by omega
      have hle := ih (n / 10) (Nat.div_lt_self (by omega) (by omega))
        (k - 1) (by omega) h2
      omega

/-! ## RFC 4180 CSV layer

Modelled from the spec (§4.3/§6): the writer quotes fields containing
commas, quotes or newlines (doubling embedded quotes); the reader is a
character-level record scanner. -/

def isCsvSpecial (c : Char) : Bool :=
  c == ',' || c == '"' || c == '\n' || c == '\r'

/-- Double every quote of a field body. -/
def escapeQuotes : List Char → List Char
  | [] => []
  | c :: cs =>
    if c = '"' then '"' :: '"' :: escapeQuotes cs
    else c :: escapeQuotes cs

/-- Modelled from the spec: RFC 4180 rendering of one field. -/
def escFieldChars (f : List Char) : List Char :=
  if f.any isCsvSpecial then '"' :: (escapeQuotes f ++ ['"']) else f

/-- One CSV record, fields comma-separated, terminated by a newline. -/
def rowChars : List (List Char) → List Char
  | [] => ['\n']
  | [f] => escFieldChars f ++ ['\n']
  | f :: fs => escFieldChars f ++ ',' :: rowChars fs

def csvChars (rows : List (List (List Char))) : List Char :=
  (rows.map rowChars).flatten

/-- Modelled from the spec: serialize records to CSV text. -/
def writeCsv (rows : List (List String)) : String :=
  ⟨csvChars (rows.map fun r => r.map String.data)⟩

/-- Parse a quoted field body (after the opening quote): returns the field
and the remainder after the closing quote; `""` is an escaped quote. -/
def parseQuoted : List Char → Option (List Char × List Char)
  | [] => none
  | c :: rest =>
    if c = '"' then
      match rest with
      | [] => some ([], [])
      | c2 :: rest2 =>
        if c2 = '"' then (parseQuoted rest2).map fun p => ('"' :: p.1, p.2)
        else some ([], c2 :: rest2)
    else (parseQuoted rest).map fun p => (c :: p.1, p.2)

/-- Take an unquoted field: everything up to a comma or newline. -/
def takeUnquoted : List Char → List Char × List Char
  | [] => ([], [])
  | c :: rest =>
    if c = ',' ∨ c = '\n' then ([], c :: rest)
    else
      let p := takeUnquoted rest
      (c :: p.1, p.2)

/-- Parse one record (fields up to and including the record terminator). -/
def parseRecord : Nat → List Char → Option (List String × List Char)
  | 0, _ => none
  | _ + 1, [] => some ([""], [])
  | fuel + 1, c :: rest =>
    if c = '"' then
      match parseQuoted rest with
      | none => none
      | some (f, rest2) =>
        match rest2 with
        | [] => some ([⟨f⟩], [])
        | c2 :: rest3 =>
          if c2 = ',' then
            (parseRecord fuel rest3).map fun p => (⟨f⟩ :: p.1, p.2)
          else if c2 = '\n' then some ([⟨f⟩], rest3)
          else none
    else
      match takeUnquoted (c :: rest) with
      | (f, rest2) =>
        match rest2 with
        | [] => some ([⟨f⟩], [])
        | c2 :: rest3 =>
          if c2 = ',' then
            (parseRecord fuel rest3).map fun p => (⟨f⟩ :: p.1, p.2)
          else if c2 = '\n' then some ([⟨f⟩], rest3)
          else none

/-- Parse a whole CSV text into records. -/
def parseRecords : Nat → List Char → Option (List (List String))
  | 0, _ => none
  | _ + 1, [] => some []
  | fuel + 1, c :: rest =>
    match parseRecord ((c :: rest).length + 1) (c :: rest) with
    | none => none
    | some (r, rest2) => (parseRecords fuel rest2).map fun rs => r :: rs

/-- Modelled from the spec: the CSV reader. -/
def parseCsv (s : String) : Option (List (List String)) :=
  parseRecords (s.data.length + 1) s.data

/-! ### CSV round-trip lemmas -/

theorem parseQuoted_escape :
    ∀ (f rest : List Char), rest.head? ≠ some '"' →
      parseQuoted (escapeQuotes f ++ '"' :: rest) = some (f, rest) := by
  intro f
  induction f with
  | nil =>
    intro rest h
    show parseQuoted ('"' :: rest) = some ([], rest)
    match rest with
    | [] => rw [parseQuoted.eq_def]; simp
    | c :: r =>
      have hc : c ≠ '"' := by
        intro he
        exact h (by rw [he]; rfl)
      rw [parseQuoted.eq_def]
      simp [hc]
  | cons c cs ih =>
    intro rest h
    by_cases hc : c = '"'
    · subst hc
      show parseQuoted ('"' :: '"' :: (escapeQuotes cs ++ '"' :: rest)) =
        some ('"' :: cs, rest)
      rw [parseQuoted.eq_def]
      simp only [reduceIte]
      rw [ih rest h]
      rfl
    · have he : escapeQuotes (c :: cs) = c :: escapeQuotes cs := by
        rw [escapeQuotes, if_neg hc]
      rw [he, List.cons_append, parseQuoted.eq_def]
      simp only [hc, if_false, ite_false]
      rw [ih rest h]
      rfl

theorem takeUnquoted_spec :
    ∀ (f rest : List Char), f.any isCsvSpecial = false →
      (rest = [] ∨ rest.head? = some ',' ∨ rest.head? = some '\n') →
      takeUnquoted (f ++ rest) = (f, rest) := by
  intro f
  induction f with
  | nil =>
    intro rest _ hr
    match rest with
    | [] => rfl
    | c :: r =>
      have hc : c = ',' ∨ c = '\n' := by
        rcases hr with hr | hr | hr
        · exact absurd hr (by simp)
        · rw [List.head?_cons] at hr
          exact Or.inl (Option.some.inj hr)
        · rw [List.head?_cons] at hr
          exact Or.inr (Option.some.inj hr)
      rw [List.nil_append, takeUnquoted, if_pos hc]
  | cons c cs ih =>
    intro rest hf hr
    have hcs : cs.any isCsvSpecial = false := by
      rw [List.any_cons, Bool.or_eq_false_iff] at hf
      exact hf.2
    have hcspec : isCsvSpecial c = false := by
      rw [List.any_cons, Bool.or_eq_false_iff] at hf
      exact hf.1
    have hcomma : c ≠ ',' := by
      intro he
      rw [he] at hcspec
      exact absurd hcspec (by decide)
    have hnl : c ≠ '\n' := by
      intro he
      rw [he] at hcspec
      exact absurd hcspec (by decide)
    rw [List.cons_append, takeUnquoted]
    rw [if_neg (by rintro (h | h) <;> [exact hcomma h; exact hnl h])]
    rw [ih rest hcs hr]

theorem parseField_esc (k : Nat) (f : List Char) (rest : List Char)
    (hrest : rest.head? = some ',' ∨ rest.head? = some '\n') :
    parseRecord (k + 1) (escFieldChars f ++ rest) =
      (match rest with
        | c2 :: rest3 =>
          if c2 = ',' then
            (parseRecord k rest3).map fun p => ((⟨f⟩ : String) :: p.1, p.2)
          else if c2 = '\n' then some ([(⟨f⟩ : String)], rest3)
          else none
        | [] => some ([(⟨f⟩ : String)], [])) := by
  match rest, hrest with
  | [], hr => simp at hr
  | c :: T, hr =>
    have hD : c = ',' ∨ c = '\n' := by
      rcases hr with hr | hr <;> rw [List.head?_cons] at hr
      · exact Or.inl (Option.some.inj hr)
      · exact Or.inr (Option.some.inj hr)
    have hcq : c ≠ '"' := by
      rcases hD with h | h <;> (subst h; decide)
    by_cases hq : f.any isCsvSpecial
    · have hesc : escFieldChars f = '"' :: (escapeQuotes f ++ ['"']) := by
        rw [escFieldChars, if_pos hq]
      have hass : ('"' :: (escapeQuotes f ++ ['"'])) ++ c :: T =
          '"' :: (escapeQuotes f ++ '"' :: (c :: T)) := by
        simp
      rw [hesc, hass, parseRecord.eq_def]
      simp only [reduceIte]
      rw [parseQuoted_escape f (c :: T) (by
        rw [List.head?_cons]
        intro hcon
        exact hcq (Option.some.inj hcon))]
    · have hesc : escFieldChars f = f := by
        rw [escFieldChars, if_neg (by simpa using hq)]
      rw [hesc]
      match f, hq with
      | [], _ =>
        rw [List.nil_append, parseRecord.eq_def]
        simp only [hcq, if_false, ite_false]
        rw [show takeUnquoted (c :: T) = ([], c :: T) from by
          rw [takeUnquoted, if_pos hD]]
      | cf :: f', hq =>
        have hnosp : (cf :: f').any isCsvSpecial = false := by
          simpa using hq
        have hcfq : cf ≠ '"' := by
          intro he
          rw [List.any_cons, Bool.or_eq_false_iff] at hnosp
          rw [he] at hnosp
          exact absurd hnosp.1 (by decide)
        rw [List.cons_append, parseRecord.eq_def]
        simp only [hcfq, if_false, ite_false]
        rw [← List.cons_append,
          takeUnquoted_spec (cf :: f') (c :: T) hnosp
            (Or.inr (by
              rcases hD with h | h
              · exact Or.inl (by rw [h]; rfl)
              · exact Or.inr (by rw [h]; rfl)))]

theorem parseRecord_rowChars :
    ∀ (fs : List (List Char)) (rest : List Char) (fuel : Nat),
      fs ≠ [] → (rowChars fs ++ rest).length < fuel →
      parseRecord fuel (rowChars fs ++ rest) =
        some (fs.map fun f => (⟨f⟩ : String), rest) := by
  intro fs
  induction fs with
  | nil => intro rest fuel h _; exact absurd rfl h
  | cons f fs ih =>
    intro rest fuel _ hfuel
    cases fuel with
    | zero => omega
    | succ k =>
      cases fs with
      | nil =>
        have hrow : rowChars [f] ++ rest = escFieldChars f ++ '\n' :: rest := by
          rw [rowChars]
          simp
        rw [hrow, parseField_esc k f ('\n' :: rest) (Or.inr rfl)]
        simp
      | cons f2 fs2 =>
        have hrow : rowChars (f :: f2 :: fs2) ++ rest =
            escFieldChars f ++ ',' :: (rowChars (f2 :: fs2) ++ rest) := by
          rw [rowChars.eq_def]
          simp
        have hlen : (rowChars (f2 :: fs2) ++ rest).length < k := by
          rw [hrow] at hfuel
          simp only [List.length_append, List.length_cons] at hfuel ⊢
          omega
        rw [hrow, parseField_esc k f (',' :: (rowChars (f2 :: fs2) ++ rest))
          (Or.inl rfl)]
        simp only [reduceIte]
        rw [ih rest k (by simp) hlen]
        simp

theorem rowChars_ne_nil : ∀ fs : List (List Char), rowChars fs ≠ [] := by
  intro fs
  rw [rowChars.eq_def]
  match fs with
  | [] => simp
  | [f] => simp
  | f :: f2 :: fs2 => simp

theorem parseRecords_csvChars :
    ∀ (rows : List (List (List Char))) (fuel : Nat),
      (∀ r ∈ rows, r ≠ []) → rows.length < fuel →
      parseRecords fuel (csvChars rows) =
        some (rows.map fun r => r.map fun f => (⟨f⟩ : String)) := by
  intro rows
  induction rows with
  | nil =>
    intro fuel _ hf
    cases fuel with
    | zero => omega
    | succ k => rfl
  | cons r rows ih =>
    intro fuel hne hf
    cases fuel with
    | zero => omega
    | succ k =>
      have hcsv : csvChars (r :: rows) = rowChars r ++ csvChars rows := by
        rw [csvChars, List.map_cons, List.flatten_cons]
        rfl
      obtain ⟨c, t, hct⟩ : ∃ c t, rowChars r = c :: t := by
        match h : rowChars r with
        | [] => exact absurd h (rowChars_ne_nil r)
        | c :: t => exact ⟨c, t, rfl⟩
      rw [hcsv, hct, List.cons_append, parseRecords.eq_def]
      simp only []
      rw [← List.cons_append, ← hct,
        parseRecord_rowChars r (csvChars rows) _
          (hne r (by simp))
          (by omega)]
      show Option.map (fun rs => (r.map fun f => (⟨f⟩ : String)) :: rs)
        (parseRecords k (csvChars rows)) = _
      rw [ih k (fun x hx => hne x (by simp [hx])) (by
        simp only [List.length_cons] at hf
        omega)]
      rfl

theorem string_mk_data (s : String) : (⟨s.data⟩ : String) = s := by
  cases s
  rfl

theorem le_length_csvChars :
    ∀ rows : List (List (List Char)), rows.length ≤ (csvChars rows).length := by
  intro rows
  induction rows with
  | nil => simp [csvChars]
  | cons r rows ih =>
    have hcsv : csvChars (r :: rows) = rowChars r ++ csvChars rows := by
      rw [csvChars, List.map_cons, List.flatten_cons]
      rfl
    rw [hcsv, List.length_cons, List.length_append]
    have h1 : 1 ≤ (rowChars r).length := by
      match h : rowChars r with
      | [] => exact absurd h (rowChars_ne_nil r)
      | c :: t => simp
    omega

/-- The CSV writer/reader round trip: parsing serialized records (each
with at least one field) returns them unchanged. -/
theorem parseCsv_writeCsv (rows : List (List String))
    (h : ∀ r ∈ rows, r ≠ []) : parseCsv (writeCsv rows) = some rows := by
  rw [parseCsv, writeCsv]
  show parseRecords
    ((csvChars (rows.map fun r => r.map String.data)).length + 1)
    (csvChars (rows.map fun r => r.map String.data)) = some rows
  rw [parseRecords_csvChars (rows.map fun r => r.map String.data) _
    (by
      intro r hr
      rw [List.mem_map] at hr
      obtain ⟨r0, hr0, hrr⟩ := hr
      subst hrr
      simp only [ne_eq, List.map_eq_nil_iff]
      exact h r0 hr0)
    (by
      have := le_length_csvChars (rows.map fun r => r.map String.data)
      simp only [List.length_map] at this ⊢
      omega)]
  congr 1
  rw [List.map_map]
  have : (fun r => (r.map String.data).map fun f => (⟨f⟩ : String)) ∘
      (fun r : List String => r) = fun r : List String => r := by
    funext r
    simp only [Function.comp_apply, List.map_map]
    have h2 : ((fun f => (⟨f⟩ : String)) ∘ String.data) = id := by
      funext s
      exact string_mk_data s
    rw [h2, List.map_id]
  calc (rows.map fun r =>
        (r.map String.data).map fun f => (⟨f⟩ : String))
      = rows.map (fun r : List String => r) := by
        apply List.map_congr_left
        intro r _
        simp only [List.map_map]
        have h2 : ((fun f => (⟨f⟩ : String)) ∘ String.data) = id := by
          funext s
          exact string_mk_data s
        rw [h2, List.map_id]
    _ = rows := List.map_id rows

/-! ## GTFS cell codecs -/

def boolCell (b : Bool) : String := if b then "1" else "0"

def boolOfCell (s : String) : Option Bool :=
  if s = "1" then some true else if s = "0" then some false else none

theorem boolOfCell_boolCell (b : Bool) :
    boolOfCell (boolCell b) = some b := by
  cases b <;> rfl

/-- Left-pad with zeros to width `w`. -/
def padZeros (w : Nat) (s : String) : String :=
  ⟨List.replicate (w - s.data.length) '0' ++ s.data⟩

theorem parseValAux_replicate_zero :
    ∀ k : Nat, parseValAux 0 (List.replicate k '0') = 0 := by
  intro k
  induction k with
  | zero => rfl
  | succ k ih => exact ih

theorem digits_no_colon (cs : List Char) (h : cs.all isDigitCh = true) :
    ':' ∉ cs := by
  intro hmem
  rw [List.all_eq_true] at h
  exact absurd (h ':' hmem) (by decide)

theorem padded_digits (w n : Nat) (h : n < 10 ^ w) (hw : 1 ≤ w) :
    (padZeros w (natToStr n)).data.length = w ∧
    (padZeros w (natToStr n)).data.all isDigitCh = true ∧
    parseValAux 0 (padZeros w (natToStr n)).data = n := by
  have hdata : (padZeros w (natToStr n)).data =
      List.replicate (w - (natDigits n).length) '0' ++ natDigits n := by
    show List.replicate (w - (natToStr n).data.length) '0' ++
      (natToStr n).data = _
    rw [natToStr_data]
  have hlen : (natDigits n).length ≤ w := natDigits_length_le n w hw h
  refine ⟨?_, ?_, ?_⟩
  · rw [hdata, List.length_append, List.length_replicate]
    omega
  · rw [hdata, List.all_append, natDigits_all_digits]
    have hz : (List.replicate (w - (natDigits n).length) '0').all
        isDigitCh = true := by
      rw [List.all_eq_true]
      intro c hc
      rw [List.eq_of_mem_replicate hc]
      decide
    rw [hz]
    rfl
  · rw [hdata, parseValAux_append, parseValAux_replicate_zero,
      parseValAux_natDigits]
    simp

/-- Date cell `YYYYMMDD`. -/
def dateCell (d : TpDate) : String := padZeros 8 (natToStr (dateKeyNat d))

def dateOfCell (s : String) : Option TpDate :=
  if s.data.length = 8 ∧ s.data.all isDigitCh then
    let v := parseValAux 0 s.data
    some ⟨v / 10000, v / 100 % 100, v % 100⟩
  else none

theorem dateOfCell_dateCell (d : TpDate) (hy : d.year < 10000)
    (hm : d.month < 100) (hd : d.day < 100) :
    dateOfCell (dateCell d) = some d := by
  have hv : dateKeyNat d < 10 ^ 8 := by
    rw [dateKeyNat]
    have : (10:Nat) ^ 8 = 100000000 := by norm_num
    omega
  obtain ⟨h1, h2, h3⟩ := padded_digits 8 (dateKeyNat d) hv (by omega)
  rw [dateOfCell, dateCell, if_pos ⟨h1, h2⟩]
  simp only [h3]
  have hk : dateKeyNat d = (d.year * 100 + d.month) * 100 + d.day := rfl
  congr 1
  cases d with
  | mk y m dd =>
    simp only at hy hm hd hk
    rw [hk]
    simp only [TpDate.mk.injEq]
    refine ⟨by omega, by omega, by omega⟩

/-- Time cell `H:MM:SS` (hours may exceed 23). -/
def timeCell (n : Nat) : String :=
  natToStr (n / 3600) ++ ":" ++ padZeros 2 (natToStr (n % 3600 / 60)) ++
    ":" ++ padZeros 2 (natToStr (n % 60))

def splitOnChar (sep : Char) : List Char → List (List Char)
  | [] => [[]]
  | c :: cs =>
    match splitOnChar sep cs with
    | [] => [[c]]
    | g :: gs => if c = sep then [] :: g :: gs else (c :: g) :: gs

def timeOfCell (s : String) : Option Nat :=
  match splitOnChar ':' s.data with
  | [h, m, sec] =>
    if h ≠ [] ∧ h.all isDigitCh ∧ m.length = 2 ∧ m.all isDigitCh ∧
        sec.length = 2 ∧ sec.all isDigitCh then
      let vm := parseValAux 0 m
      let vs := parseValAux 0 sec
      if vm < 60 ∧ vs < 60 then
        some (parseValAux 0 h * 3600 + vm * 60 + vs)
      else none
    else none
  | _ => none

theorem splitOnChar_ne_nil (sep : Char) :
    ∀ xs : List Char, splitOnChar sep xs ≠ [] := by
  intro xs
  induction xs with
  | nil => simp [splitOnChar]
  | cons c cs ih =>
    rw [splitOnChar]
    obtain ⟨g, gs, hg⟩ : ∃ g gs, splitOnChar sep cs = g :: gs := by
      match h : splitOnChar sep cs with
      | [] => exact absurd h ih
      | g :: gs => exact ⟨g, gs, rfl⟩
    rw [hg]
    by_cases h : c = sep
    · simp [h]
    · simp [h]

theorem splitOnChar_no_sep (sep : Char) :
    ∀ xs : List Char, sep ∉ xs → splitOnChar sep xs = [xs] := by
  intro xs
  induction xs with
  | nil => intro _; rfl
  | cons c cs ih =>
    intro h
    have hcs : sep ∉ cs := fun hm => h (List.mem_cons_of_mem c hm)
    have hc : c ≠ sep := fun he => h (he ▸ List.mem_cons_self c cs)
    rw [splitOnChar, ih hcs]
    simp [hc]

theorem splitOnChar_append (sep : Char) :
    ∀ (xs rest : List Char), sep ∉ xs →
      splitOnChar sep (xs ++ sep :: rest) = xs :: splitOnChar sep rest := by
  intro xs
  induction xs with
  | nil =>
    intro rest _
    rw [List.nil_append, splitOnChar]
    obtain ⟨g, gs, hg⟩ : ∃ g gs, splitOnChar sep rest = g :: gs := by
      match h : splitOnChar sep rest with
      | [] => exact absurd h (splitOnChar_ne_nil sep rest)
      | g :: gs => exact ⟨g, gs, rfl⟩
    rw [hg]
    simp
  | cons c cs ih =>
    intro rest h
    have hcs : sep ∉ cs := fun hm => h (List.mem_cons_of_mem c hm)
    have hc : c ≠ sep := fun he => h (he ▸ List.mem_cons_self c cs)
    rw [List.cons_append, splitOnChar, ih rest hcs]
    simp [hc]

theorem timeOfCell_timeCell (n : Nat) : timeOfCell (timeCell n) = some n := by
  have hm : n % 3600 / 60 < 100 := by omega
  have hs : n % 60 < 100 := by omega
  obtain ⟨hm1, hm2, hm3⟩ := padded_digits 2 (n % 3600 / 60)
    (by norm_num; omega) (by omega)
  obtain ⟨hs1, hs2, hs3⟩ := padded_digits 2 (n % 60)
    (by norm_num; omega) (by omega)
  have hhd := natDigits_all_digits (n / 3600)
  have hsplit : (timeCell n).data =
      natDigits (n / 3600) ++ ':' ::
        ((padZeros 2 (natToStr (n % 3600 / 60))).data ++ ':' ::
          (padZeros 2 (natToStr (n % 60))).data) := by
    rw [timeCell]
    simp only [String.data_append, natToStr_data]
    simp [List.append_assoc]
  rw [timeOfCell, hsplit, splitOnChar_append ':' _ _
    (digits_no_colon _ hhd)]
  rw [splitOnChar_append ':' _ _ (digits_no_colon _ hm2)]
  rw [splitOnChar_no_sep ':' _ (digits_no_colon _ hs2)]
  simp only []
  rw [if_pos ⟨natDigits_ne_nil (n / 3600), hhd, hm1, hm2, hs1, hs2⟩]
  rw [if_pos (by rw [hm3, hs3]; omega)]
  rw [hm3, hs3]
  have hh : parseValAux 0 (natDigits (n / 3600)) = n / 3600 := by
    rw [parseValAux_natDigits]
    simp
  rw [hh]
  congr 1
  omega

/-- Optional text cell: absent encodes as the empty cell. -/
def optCell (o : Option String) : String := o.getD ""

def optOfCell (s : String) : Option String :=
  if s = "" then none else some s

theorem optOfCell_optCell (o : Option String) (h : o ≠ some "") :
    optOfCell (optCell o) = o := by
  match o with
  | none => rfl
  | some v =>
    have hv : v ≠ "" := fun he => h (by rw [he])
    rw [optCell, Option.getD, optOfCell, if_neg hv]

/-! ## Header-driven table codecs

Modelled from the spec: CSV parsing is header-driven; the writer emits the
canonical GTFS column order. -/

def getCell (header row : List String) (name : String) : Option String :=
  match header.findIdx? (· == name) with
  | some i => row[i]?
  | none => none

/-- Optional column: absent column or empty cell yields `none`. -/
def getOptCol (header row : List String) (name : String) : Option String :=
  match header.findIdx? (· == name) with
  | some i =>
    match row[i]? with
    | some v => optOfCell v
    | none => none
  | none => none

def agencyHeader : List String :=
  ["agency_id", "agency_name", "agency_url", "agency_timezone"]

def Agency.toCells (a : Agency) : List String :=
  [a.id, a.name, a.url, a.timezone]

def agencyOfRow (header row : List String) : Option Agency :=
  (getCell header row "agency_id").bind fun i =>
  (getCell header row "agency_name").bind fun n =>
  (getCell header row "agency_url").bind fun u =>
  (getCell header row "agency_timezone").bind fun t =>
  some ⟨i, n, u, t⟩

def stopsHeader : List String :=
  ["stop_id", "stop_name", "stop_lat", "stop_lon"]

def Stop.toCells (s : Stop) : List String :=
  [s.id, s.name, optCell s.lat, optCell s.lon]

def stopOfRow (header row : List String) : Option Stop :=
  (getCell header row "stop_id").bind fun i =>
  (getCell header row "stop_name").bind fun n =>
  some { id := i, name := n, lat := getOptCol header row "stop_lat",
         lon := getOptCol header row "stop_lon" }

def routesHeader : List String :=
  ["route_id", "route_short_name", "route_long_name", "route_type"]

def Route.toCells (r : Route) : List String :=
  [r.id, r.short_name, r.long_name, natToStr r.route_type]

def routeOfRow (header row : List String) : Option Route :=
  (getCell header row "route_id").bind fun i =>
  (getCell header row "route_short_name").bind fun sn =>
  (getCell header row "route_long_name").bind fun ln =>
  ((getCell header row "route_type").bind strToNat).bind fun rt =>
  some ⟨i, sn, ln, rt⟩

def tripsHeader : List String :=
  ["route_id", "service_id", "trip_id", "trip_headsign"]

def Trip.toCells (t : Trip) : List String :=
  [t.route_id, t.service_id, t.id, t.headsign]

def tripOfRow (header row : List String) : Option Trip :=
  (getCell header row "route_id").bind fun r =>
  (getCell header row "service_id").bind fun sv =>
  (getCell header row "trip_id").bind fun i =>
  (getCell header row "trip_headsign").bind fun h =>
  some ⟨i, r, sv, h⟩

def stopTimesHeader : List String :=
  ["trip_id", "arrival_time", "departure_time", "stop_id", "stop_sequence"]

def StopTime.toCells (st : StopTime) : List String :=
  [st.trip_id, timeCell st.arrival, timeCell st.departure, st.stop_id,
    natToStr st.stop_sequence]

def stopTimeOfRow (header row : List String) : Option StopTime :=
  (getCell header row "trip_id").bind fun t =>
  ((getCell header row "arrival_time").bind timeOfCell).bind fun a =>
  ((getCell header row "departure_time").bind timeOfCell).bind fun dp =>
  (getCell header row "stop_id").bind fun si =>
  ((getCell header row "stop_sequence").bind strToNat).bind fun sq =>
  some ⟨t, a, dp, si, sq⟩

def calendarHeader : List String :=
  ["service_id", "monday", "tuesday", "wednesday", "thursday", "friday",
    "saturday", "sunday", "start_date", "end_date"]

def Calendar.toCells (c : Calendar) : List String :=
  [c.service_id, boolCell c.monday, boolCell c.tuesday,
    boolCell c.wednesday, boolCell c.thursday, boolCell c.friday,
    boolCell c.saturday, boolCell c.sunday, dateCell c.start_date,
    dateCell c.end_date]

def calendarOfRow (header row : List String) : Option Calendar :=
  (getCell header row "service_id").bind fun sv =>
  ((getCell header row "monday").bind boolOfCell).bind fun mo =>
  ((getCell header row "tuesday").bind boolOfCell).bind fun tu =>
  ((getCell header row "wednesday").bind boolOfCell).bind fun we =>
  ((getCell header row "thursday").bind boolOfCell).bind fun th =>
  ((getCell header row "friday").bind boolOfCell).bind fun fr =>
  ((getCell header row "saturday").bind boolOfCell).bind fun sa =>
  ((getCell header row "sunday").bind boolOfCell).bind fun su =>
  ((getCell header row "start_date").bind dateOfCell).bind fun sd =>
  ((getCell header row "end_date").bind dateOfCell).bind fun ed =>
  some ⟨sv, mo, tu, we, th, fr, sa, su, sd, ed⟩

def calendarDatesHeader : List String :=
  ["service_id", "date", "exception_type"]

def CalendarDate.toCells (cd : CalendarDate) : List String :=
  [cd.service_id, dateCell cd.date, natToStr cd.exception_type]

def calendarDateOfRow (header row : List String) : Option CalendarDate :=
  (getCell header row "service_id").bind fun sv =>
  ((getCell header row "date").bind dateOfCell).bind fun dt =>
  ((getCell header row "exception_type").bind strToNat).bind fun ty =>
  some ⟨sv, dt, ty⟩

def shapesHeader : List String :=
  ["shape_id", "shape_pt_lat", "shape_pt_lon", "shape_pt_sequence"]

def shapeRowCells (pr : String × ShapePoint) : List String :=
  [pr.1, pr.2.lat, pr.2.lon, natToStr pr.2.sequence]

def shapeRowOfRow (header row : List String) :
    Option (String × ShapePoint) :=
  (getCell header row "shape_id").bind fun i =>
  (getCell header row "shape_pt_lat").bind fun la =>
  (getCell header row "shape_pt_lon").bind fun lo =>
  ((getCell header row "shape_pt_sequence").bind strToNat).bind fun sq =>
  some (i, ⟨la, lo, sq⟩)

/-- Modelled from the spec: parse one CSV table, header row first. -/
def parseTable {α : Type} (ofRow : List String → List String → Option α)
    (text : String) : Option (List α) :=
  match parseCsv text with
  | none => none
  | some [] => none
  | some (header :: rows) => rows.mapM (ofRow header)

/-- Modelled from the spec: write one CSV table with its header. -/
def writeTable {α : Type} (header : List String) (toCells : α → List String)
    (l : List α) : String :=
  writeCsv (header :: l.map toCells)

/-! ### Per-row round trips -/

def dateOk (d : TpDate) : Prop :=
  d.year < 10000 ∧ d.month < 100 ∧ d.day < 100

instance (d : TpDate) : Decidable (dateOk d) :=
  inferInstanceAs (Decidable (d.year < 10000 ∧ d.month < 100 ∧ d.day < 100))

theorem agencyOfRow_toCells (a : Agency) :
    agencyOfRow agencyHeader a.toCells = some a := rfl

theorem stopOfRow_toCells (s : Stop) (hla : s.lat ≠ some "")
    (hlo : s.lon ≠ some "") : stopOfRow stopsHeader s.toCells = some s := by
  show some ({ id := s.id, name := s.name,
               lat := optOfCell (optCell s.lat),
               lon := optOfCell (optCell s.lon) } : Stop) = some s
  rw [optOfCell_optCell s.lat hla, optOfCell_optCell s.lon hlo]

theorem routeOfRow_toCells (r : Route) :
    routeOfRow routesHeader r.toCells = some r := by
  show ((strToNat (natToStr r.route_type)).bind fun rt =>
    some (⟨r.id, r.short_name, r.long_name, rt⟩ : Route)) = some r
  rw [strToNat_natToStr]
  rfl

theorem tripOfRow_toCells (t : Trip) :
    tripOfRow tripsHeader t.toCells = some t := rfl

theorem stopTimeOfRow_toCells (st : StopTime) :
    stopTimeOfRow stopTimesHeader st.toCells = some st := by
  show ((timeOfCell (timeCell st.arrival)).bind fun a =>
    (timeOfCell (timeCell st.departure)).bind fun dp =>
    (strToNat (natToStr st.stop_sequence)).bind fun sq =>
    some (⟨st.trip_id, a, dp, st.stop_id, sq⟩ : StopTime)) = some st
  rw [timeOfCell_timeCell, timeOfCell_timeCell, strToNat_natToStr]
  rfl

theorem calendarOfRow_toCells (c : Calendar) (h1 : dateOk c.start_date)
    (h2 : dateOk c.end_date) :
    calendarOfRow calendarHeader c.toCells = some c := by
  show ((boolOfCell (boolCell c.monday)).bind fun mo =>
    (boolOfCell (boolCell c.tuesday)).bind fun tu =>
    (boolOfCell (boolCell c.wednesday)).bind fun we =>
    (boolOfCell (boolCell c.thursday)).bind fun th =>
    (boolOfCell (boolCell c.friday)).bind fun fr =>
    (boolOfCell (boolCell c.saturday)).bind fun sa =>
    (boolOfCell (boolCell c.sunday)).bind fun su =>
    (dateOfCell (dateCell c.start_date)).bind fun sd =>
    (dateOfCell (dateCell c.end_date)).bind fun ed =>
    some (⟨c.service_id, mo, tu, we, th, fr, sa, su, sd, ed⟩ : Calendar)) =
      some c
  rw [boolOfCell_boolCell, boolOfCell_boolCell, boolOfCell_boolCell,
    boolOfCell_boolCell, boolOfCell_boolCell, boolOfCell_boolCell,
    boolOfCell_boolCell,
    dateOfCell_dateCell c.start_date h1.1 h1.2.1 h1.2.2,
    dateOfCell_dateCell c.end_date h2.1 h2.2.1 h2.2.2]
  rfl

theorem calendarDateOfRow_toCells (cd : CalendarDate) (h : dateOk cd.date) :
    calendarDateOfRow calendarDatesHeader cd.toCells = some cd := by
  show ((dateOfCell (dateCell cd.date)).bind fun dt =>
    (strToNat (natToStr cd.exception_type)).bind fun ty =>
    some (⟨cd.service_id, dt, ty⟩ : CalendarDate)) = some cd
  rw [dateOfCell_dateCell cd.date h.1 h.2.1 h.2.2, strToNat_natToStr]
  rfl

theorem shapeRowOfRow_cells (pr : String × ShapePoint) :
    shapeRowOfRow shapesHeader (shapeRowCells pr) = some pr := by
  show ((strToNat (natToStr pr.2.sequence)).bind fun sq =>
    some ((pr.1, ⟨pr.2.lat, pr.2.lon, sq⟩) : String × ShapePoint)) = some pr
  rw [strToNat_natToStr]
  rfl

/-! ### Table-level round trip -/

theorem mapM_ofRow {α : Type} (ofRow : List String → List String → Option α)
    (header : List String) (toCells : α → List String) :
    ∀ l : List α, (∀ a ∈ l, ofRow header (toCells a) = some a) →
      (l.map toCells).mapM (ofRow header) = some l := by
  intro l
  induction l with
  | nil => intro _; rfl
  | cons a l ih =>
    intro h
    rw [List.map_cons, List.mapM_cons, h a (by simp),
      ih (fun x hx => h x (by simp [hx]))]
    rfl

theorem parseTable_writeTable {α : Type} (header : List String)
    (toCells : α → List String)
    (ofRow : List String → List String → Option α) (l : List α)
    (hhead : header ≠ []) (hcells : ∀ a ∈ l, toCells a ≠ [])
    (hrt : ∀ a ∈ l, ofRow header (toCells a) = some a) :
    parseTable ofRow (writeTable header toCells l) = some l := by
  rw [parseTable, writeTable,
    parseCsv_writeCsv (header :: l.map toCells) (by
      intro r hr
      rw [List.mem_cons] at hr
      rcases hr with hr | hr
      · subst hr
        exact hhead
      · rw [List.mem_map] at hr
        obtain ⟨a, ha, hr⟩ := hr
        subst hr
        exact hcells a ha)]
  exact mapM_ofRow ofRow header toCells l hrt

/-! ## Feed directory, writer and eager loader -/

/-- Modelled from the spec: the CSV tables of a GTFS directory (or ZIP):
`none` when the file is absent. -/
structure GtfsDir where
  agency : Option String := none
  stops : Option String := none
  routes : Option String := none
  trips : Option String := none
  stop_times : Option String := none
  calendar : Option String := none
  calendar_dates : Option String := none
  shapes : Option String := none
deriving DecidableEq

/-- A required table: absent file fails the load
(`GtfsFileNotFoundError`). -/
def loadReq {α : Type} (ofRow : List String → List String → Option α)
    (o : Option String) : Option (List α) :=
  match o with
  | none => none
  | some text => parseTable ofRow text

/-- An optional table: absent file loads as empty. -/
def loadOpt {α : Type} (ofRow : List String → List String → Option α)
    (o : Option String) : Option (List α) :=
  match o with
  | none => some []
  | some text => parseTable ofRow text

/-- Modelled from the spec: aggregate flat shape rows into shapes,
grouping consecutive rows with equal `shape_id`. -/
def groupShapes : List (String × ShapePoint) → List Shape
  | [] => []
  | (i, p) :: rest =>
    match groupShapes rest with
    | [] => [⟨i, [p]⟩]
    | sh :: shs =>
      if sh.id = i then ⟨i, p :: sh.points⟩ :: shs
      else ⟨i, [p]⟩ :: sh :: shs

/-- Modelled from the spec: the eager reader — parse every recognized
table fully at open (the five required ones must be present and parse). -/
def eagerLoad (d : GtfsDir) : Option GtfsFeed :=
  (loadReq agencyOfRow d.agency).bind fun ags =>
  (loadReq stopOfRow d.stops).bind fun sts =>
  (loadReq routeOfRow d.routes).bind fun rts =>
  (loadReq tripOfRow d.trips).bind fun trs =>
  (loadReq stopTimeOfRow d.stop_times).bind fun stts =>
  (loadOpt calendarOfRow d.calendar).bind fun cals =>
  (loadOpt calendarDateOfRow d.calendar_dates).bind fun cds =>
  (loadOpt shapeRowOfRow d.shapes).bind fun shr =>
  some { agencies := ags, stops := sts, routes := rts, trips := trs,
         stop_times := stts, calendars := cals, calendar_dates := cds,
         shapes := groupShapes shr }

/-- Flatten shapes to writer rows (points of each shape consecutive). -/
def shapeRows (shapes : List Shape) : List (String × ShapePoint) :=
  (shapes.map fun sh => sh.points.map fun p => (sh.id, p)).flatten

/-- Modelled from the spec: the writer — the five required tables always,
optional tables omitted when empty. -/
def writeFeedDir (f : GtfsFeed) : GtfsDir :=
  { agency := some (writeTable agencyHeader Agency.toCells f.agencies),
    stops := some (writeTable stopsHeader Stop.toCells f.stops),
    routes := some (writeTable routesHeader Route.toCells f.routes),
    trips := some (writeTable tripsHeader Trip.toCells f.trips),
    stop_times :=
      some (writeTable stopTimesHeader StopTime.toCells f.stop_times),
    calendar :=
      if f.calendars.isEmpty then none
      else some (writeTable calendarHeader Calendar.toCells f.calendars),
    calendar_dates :=
      if f.calendar_dates.isEmpty then none
      else some (writeTable calendarDatesHeader CalendarDate.toCells
        f.calendar_dates),
    shapes :=
      if f.shapes.isEmpty then none
      else some (writeTable shapesHeader shapeRowCells
        (shapeRows f.shapes)) }

theorem groupShapes_points (i : String) :
    ∀ (ps : List ShapePoint) (rest : List (String × ShapePoint)),
      ps ≠ [] →
      (∀ sh0 shs0, groupShapes rest = sh0 :: shs0 → sh0.id ≠ i) →
      groupShapes ((ps.map fun p => (i, p)) ++ rest) =
        ⟨i, ps⟩ :: groupShapes rest := by
  intro ps
  induction ps with
  | nil => intro rest h _; exact absurd rfl h
  | cons p ps ih =>
    intro rest _ hne
    cases ps with
    | nil =>
      show groupShapes ((i, p) :: rest) = ⟨i, [p]⟩ :: groupShapes rest
      rw [groupShapes]
      match hg : groupShapes rest with
      | [] => rfl
      | sh :: shs =>
        simp [hne sh shs hg]
    | cons p2 ps2 =>
      have hstep : ((p :: p2 :: ps2).map fun q => (i, q)) ++ rest =
          (i, p) :: (((p2 :: ps2).map fun q => (i, q)) ++ rest) := by
        simp
      rw [hstep, groupShapes, ih rest (by simp) hne]
      simp

/-- Adjacent shapes carry distinct ids (decidable, kernel-evaluable). -/
def adjDistinctIds : List Shape → Bool
  | [] => true
  | [_] => true
  | a :: b :: rest => (a.id != b.id) && adjDistinctIds (b :: rest)

theorem groupShapes_shapeRows :
    ∀ shapes : List Shape,
      (∀ sh ∈ shapes, sh.points ≠ []) →
      adjDistinctIds shapes = true →
      groupShapes (shapeRows shapes) = shapes := by
  intro shapes
  induction shapes with
  | nil => intro _ _; rfl
  | cons sh shapes ih =>
    intro hne hchain
    have hrows : shapeRows (sh :: shapes) =
        (sh.points.map fun p => (sh.id, p)) ++ shapeRows shapes := by
      rw [shapeRows, List.map_cons, List.flatten_cons]
      rfl
    have hch2 : adjDistinctIds shapes = true := by
      match shapes, hchain with
      | [], _ => rfl
      | s2 :: rest, hc =>
        simp only [adjDistinctIds, Bool.and_eq_true] at hc
        exact hc.2
    have hgrest : groupShapes (shapeRows shapes) = shapes :=
      ih (fun x hx => hne x (by simp [hx])) hch2
    rw [hrows, groupShapes_points sh.id sh.points (shapeRows shapes)
      (hne sh (by simp))
      (by
        intro sh0 shs0 hg
        rw [hgrest] at hg
        subst hg
        simp only [adjDistinctIds, Bool.and_eq_true, bne_iff_ne] at hchain
        exact Ne.symm hchain.1), hgrest]

/-! ## Claim C8 -/

/-- The well-formedness a feed read from disk always has: in-range date
fields, no present-but-empty coordinate text, and aggregated shapes
(non-empty, adjacent ids distinct). -/
def ValidFeed (f : GtfsFeed) : Prop :=
  (∀ s ∈ f.stops, s.lat ≠ some "" ∧ s.lon ≠ some "") ∧
  (∀ c ∈ f.calendars, dateOk c.start_date ∧ dateOk c.end_date) ∧
  (∀ cd ∈ f.calendar_dates, dateOk cd.date) ∧
  (∀ sh ∈ f.shapes, sh.points ≠ []) ∧
  adjDistinctIds f.shapes = true

theorem wfd_agencies (f : GtfsFeed) :
    loadReq agencyOfRow (writeFeedDir f).agency = some f.agencies := by
  show parseTable agencyOfRow
    (writeTable agencyHeader Agency.toCells f.agencies) = some f.agencies
  exact parseTable_writeTable _ _ _ _ (by simp [agencyHeader])
    (fun a _ => by simp [Agency.toCells])
    (fun a _ => agencyOfRow_toCells a)

theorem wfd_stops (f : GtfsFeed)
    (hstp : ∀ s ∈ f.stops, s.lat ≠ some "" ∧ s.lon ≠ some "") :
    loadReq stopOfRow (writeFeedDir f).stops = some f.stops := by
  show parseTable stopOfRow
    (writeTable stopsHeader Stop.toCells f.stops) = some f.stops
  exact parseTable_writeTable _ _ _ _ (by simp [stopsHeader])
    (fun a _ => by simp [Stop.toCells])
    (fun a ha => stopOfRow_toCells a (hstp a ha).1 (hstp a ha).2)

theorem wfd_routes (f : GtfsFeed) :
    loadReq routeOfRow (writeFeedDir f).routes = some f.routes := by
  show parseTable routeOfRow
    (writeTable routesHeader Route.toCells f.routes) = some f.routes
  exact parseTable_writeTable _ _ _ _ (by simp [routesHeader])
    (fun a _ => by simp [Route.toCells])
    (fun a _ => routeOfRow_toCells a)

theorem wfd_trips (f : GtfsFeed) :
    loadReq tripOfRow (writeFeedDir f).trips = some f.trips := by
  show parseTable tripOfRow
    (writeTable tripsHeader Trip.toCells f.trips) = some f.trips
  exact parseTable_writeTable _ _ _ _ (by simp [tripsHeader])
    (fun a _ => by simp [Trip.toCells])
    (fun a _ => tripOfRow_toCells a)

theorem wfd_stop_times (f : GtfsFeed) :
    loadReq stopTimeOfRow (writeFeedDir f).stop_times =
      some f.stop_times := by
  show parseTable stopTimeOfRow
    (writeTable stopTimesHeader StopTime.toCells f.stop_times) =
    some f.stop_times
  exact parseTable_writeTable _ _ _ _ (by simp [stopTimesHeader])
    (fun a _ => by simp [StopTime.toCells])
    (fun a _ => stopTimeOfRow_toCells a)

theorem wfd_calendars (f : GtfsFeed)
    (hcal : ∀ c ∈ f.calendars, dateOk c.start_date ∧ dateOk c.end_date) :
    loadOpt calendarOfRow (writeFeedDir f).calendar =
      some f.calendars := by
  show loadOpt calendarOfRow
    (if f.calendars.isEmpty then none
      else some (writeTable calendarHeader Calendar.toCells
        f.calendars)) = some f.calendars
  by_cases he : f.calendars.isEmpty
  · rw [if_pos he]
    rw [List.isEmpty_iff] at he
    rw [he]
    rfl
  · rw [if_neg he]
    show parseTable calendarOfRow
      (writeTable calendarHeader Calendar.toCells f.calendars) =
      some f.calendars
    exact parseTable_writeTable _ _ _ _ (by simp [calendarHeader])
      (fun a _ => by simp [Calendar.toCells])
      (fun a ha => calendarOfRow_toCells a (hcal a ha).1 (hcal a ha).2)

theorem wfd_calendar_dates (f : GtfsFeed)
    (hcd : ∀ cd ∈ f.calendar_dates, dateOk cd.date) :
    loadOpt calendarDateOfRow (writeFeedDir f).calendar_dates =
      some f.calendar_dates := by
  show loadOpt calendarDateOfRow
    (if f.calendar_dates.isEmpty then none
      else some (writeTable calendarDatesHeader CalendarDate.toCells
        f.calendar_dates)) = some f.calendar_dates
  by_cases he : f.calendar_dates.isEmpty
  · rw [if_pos he]
    rw [List.isEmpty_iff] at he
    rw [he]
    rfl
  · rw [if_neg he]
    show parseTable calendarDateOfRow
      (writeTable calendarDatesHeader CalendarDate.toCells
        f.calendar_dates) = some f.calendar_dates
    exact parseTable_writeTable _ _ _ _ (by simp [calendarDatesHeader])
      (fun a _ => by simp [CalendarDate.toCells])
      (fun a ha => calendarDateOfRow_toCells a (hcd a ha))

theorem wfd_shaperows (f : GtfsFeed) :
    loadOpt shapeRowOfRow (writeFeedDir f).shapes =
      some (shapeRows f.shapes) := by
  show loadOpt shapeRowOfRow
    (if f.shapes.isEmpty then none
      else some (writeTable shapesHeader shapeRowCells
        (shapeRows f.shapes))) = some (shapeRows f.shapes)
  by_cases he : f.shapes.isEmpty
  · rw [if_pos he]
    rw [List.isEmpty_iff] at he
    rw [he]
    rfl
  · rw [if_neg he]
    show parseTable shapeRowOfRow
      (writeTable shapesHeader shapeRowCells (shapeRows f.shapes)) =
      some (shapeRows f.shapes)
    exact parseTable_writeTable _ _ _ _ (by simp [shapesHeader])
      (fun a _ => by simp [shapeRowCells])
      (fun a _ => shapeRowOfRow_cells a)

theorem eagerLoad_writeFeedDir (f : GtfsFeed) (hv : ValidFeed f) :
    eagerLoad (writeFeedDir f) = some f := by
  obtain ⟨hstp, hcal, hcd, hshp, hchain⟩ := hv
  rw [eagerLoad, wfd_agencies f, wfd_stops f hstp, wfd_routes f,
    wfd_trips f, wfd_stop_times f, wfd_calendars f hcal,
    wfd_calendar_dates f hcd, wfd_shaperows f]
  show some ({ agencies := f.agencies, stops := f.stops,
               routes := f.routes, trips := f.trips,
               stop_times := f.stop_times, calendars := f.calendars,
               calendar_dates := f.calendar_dates,
               shapes := groupShapes (shapeRows f.shapes) } :
    GtfsFeed) = some f
  rw [groupShapes_shapeRows f.shapes hshp hchain]

/-- C8: writing a feed to a directory and reloading yields a feed with
equal entity counts and the same ids per table (indeed the identical
feed), for any feed satisfying the on-disk well-formedness `ValidFeed`. -/
theorem gtfs_csv_round_trip (f : GtfsFeed) (hv : ValidFeed f) :
    ∃ f', eagerLoad (writeFeedDir f) = some f' ∧
      f'.agency_count = f.agency_count ∧
      f'.stop_count = f.stop_count ∧
      f'.route_count = f.route_count ∧
      f'.trip_count = f.trip_count ∧
      f'.stop_time_count = f.stop_time_count ∧
      f'.calendars.length = f.calendars.length ∧
      f'.calendar_dates.length = f.calendar_dates.length ∧
      f'.shapes.length = f.shapes.length ∧
      f'.agencies.map Agency.id = f.agencies.map Agency.id ∧
      f'.stops.map Stop.id = f.stops.map Stop.id ∧
      f'.routes.map Route.id = f.routes.map Route.id ∧
      f'.trips.map Trip.id = f.trips.map Trip.id ∧
      f'.calendars.map Calendar.service_id =
        f.calendars.map Calendar.service_id ∧
      f'.shapes.map Shape.id = f.shapes.map Shape.id :=
  ⟨f, eagerLoad_writeFeedDir f hv, rfl, rfl, rfl, rfl, rfl, rfl, rfl, rfl,
    rfl, rfl, rfl, rfl, rfl, rfl⟩

/-- Witness for C8 at the sample feed. -/
theorem gtfs_csv_round_trip_witness :
    ∃ f', eagerLoad (writeFeedDir sampleFeed) = some f' ∧
      f'.agency_count = sampleFeed.agency_count ∧
      f'.stop_count = sampleFeed.stop_count ∧
      f'.route_count = sampleFeed.route_count ∧
      f'.trip_count = sampleFeed.trip_count ∧
      f'.stop_time_count = sampleFeed.stop_time_count ∧
      f'.calendars.length = sampleFeed.calendars.length ∧
      f'.calendar_dates.length = sampleFeed.calendar_dates.length ∧
      f'.shapes.length = sampleFeed.shapes.length ∧
      f'.agencies.map Agency.id = sampleFeed.agencies.map Agency.id ∧
      f'.stops.map Stop.id = sampleFeed.stops.map Stop.id ∧
      f'.routes.map Route.id = sampleFeed.routes.map Route.id ∧
      f'.trips.map Trip.id = sampleFeed.trips.map Trip.id ∧
      f'.calendars.map Calendar.service_id =
        sampleFeed.calendars.map Calendar.service_id ∧
      f'.shapes.map Shape.id = sampleFeed.shapes.map Shape.id :=
  gtfs_csv_round_trip sampleFeed
    (by
      refine ⟨by decide, by decide, by decide, by decide, ?_⟩
      decide)

/-! ## Claim C4 -/

/-- C4: the converter is deterministic — on identical input and options
two runs produce byte-identical CSV output (the model's converter and
writer are pure functions, so the serialized directories coincide) — and
every output collection of the produced feed is sorted by its primary id
(stop_times by `(trip_id, stop_sequence)`, calendar_dates by
`(service_id, date)`), in lexicographic order. -/
theorem conversion_deterministic (doc : TxcDocument)
    (opts : ConversionOptions) :
    writeFeedDir (txcToGtfs doc opts).feed =
      writeFeedDir (txcToGtfs doc opts).feed ∧
    (txcToGtfs doc opts).feed.agencies.Pairwise (keyLe Agency.id) ∧
    (txcToGtfs doc opts).feed.stops.Pairwise (keyLe Stop.id) ∧
    (txcToGtfs doc opts).feed.routes.Pairwise (keyLe Route.id) ∧
    (txcToGtfs doc opts).feed.trips.Pairwise (keyLe Trip.id) ∧
    (txcToGtfs doc opts).feed.calendars.Pairwise
      (keyLe Calendar.service_id) ∧
    (txcToGtfs doc opts).feed.stop_times.Pairwise
      (keyLe2 StopTime.trip_id StopTime.stop_sequence) ∧
    (txcToGtfs doc opts).feed.calendar_dates.Pairwise
      (keyLe2 CalendarDate.service_id fun cd => dateKeyNat cd.date) ∧
    (txcToGtfs doc opts).feed.shapes.Pairwise (keyLe Shape.id) := by
  refine ⟨rfl, ?_, ?_, ?_, ?_, ?_, ?_, ?_, ?_⟩
  · exact List.sorted_insertionSort (keyLe Agency.id) _
  · exact List.sorted_insertionSort (keyLe Stop.id) _
  · exact List.sorted_insertionSort (keyLe Route.id) _
  · exact List.sorted_insertionSort (keyLe Trip.id) _
  · exact List.sorted_insertionSort (keyLe Calendar.service_id) _
  · exact List.sorted_insertionSort
      (keyLe2 StopTime.trip_id StopTime.stop_sequence) _
  · exact List.sorted_insertionSort
      (keyLe2 CalendarDate.service_id fun cd => dateKeyNat cd.date) _
  · show (convertShapes doc (retainedVjs doc) opts).Pairwise
      (keyLe Shape.id)
    rw [convertShapes]
    by_cases h : opts.include_shapes
    · rw [if_pos h]
      exact List.sorted_insertionSort (keyLe Shape.id) _
    · rw [if_neg h]
      exact List.Pairwise.nil

/-- Witness for C4 at the sample TXC document with default options. -/
theorem conversion_deterministic_witness :
    writeFeedDir (txcToGtfs sampleTxcDoc {}).feed =
      writeFeedDir (txcToGtfs sampleTxcDoc {}).feed ∧
    (txcToGtfs sampleTxcDoc {}).feed.agencies.Pairwise
      (keyLe Agency.id) ∧
    (txcToGtfs sampleTxcDoc {}).feed.stops.Pairwise (keyLe Stop.id) ∧
    (txcToGtfs sampleTxcDoc {}).feed.routes.Pairwise (keyLe Route.id) ∧
    (txcToGtfs sampleTxcDoc {}).feed.trips.Pairwise (keyLe Trip.id) ∧
    (txcToGtfs sampleTxcDoc {}).feed.calendars.Pairwise
      (keyLe Calendar.service_id) ∧
    (txcToGtfs sampleTxcDoc {}).feed.stop_times.Pairwise
      (keyLe2 StopTime.trip_id StopTime.stop_sequence) ∧
    (txcToGtfs sampleTxcDoc {}).feed.calendar_dates.Pairwise
      (keyLe2 CalendarDate.service_id fun cd => dateKeyNat cd.date) ∧
    (txcToGtfs sampleTxcDoc {}).feed.shapes.Pairwise (keyLe Shape.id) :=
  conversion_deterministic sampleTxcDoc {}

/-! ## Lazy feed layer and fast line counts -/

def countNl : List Char → Nat
  | [] => 0
  | c :: cs => (if c = '\n' then 1 else 0) + countNl cs

/-- The "fast line-count" of a text: newline count, plus one for a final
unterminated line. -/
def lineCountChars (cs : List Char) : Nat :=
  countNl cs +
    (match cs.getLast? with
      | some c => if c = '\n' then 0 else 1
      | none => 0)

/-- Modelled from the spec: row count of an unparsed table — fast line
count minus one for the header. -/
def fastRowCount (text : String) : Nat := lineCountChars text.data - 1

theorem countNl_append (a b : List Char) :
    countNl (a ++ b) = countNl a + countNl b := by
  induction a with
  | nil => simp [countNl]
  | cons c cs ih =>
    rw [List.cons_append, countNl, ih, countNl]
    omega

theorem countNl_eq_zero_of_not_mem {l : List Char} (h : '\n' ∉ l) :
    countNl l = 0 := by
  induction l with
  | nil => rfl
  | cons c cs ih =>
    rw [countNl,
      if_neg (fun he => h (by rw [← he]; exact List.mem_cons_self c cs)),
      ih (fun hm => h (List.mem_cons_of_mem c hm))]

theorem not_mem_of_countNl_eq_zero {l : List Char} (h : countNl l = 0) :
    '\n' ∉ l := by
  induction l with
  | nil => simp
  | cons c cs ih =>
    rw [countNl] at h
    intro hm
    rw [List.mem_cons] at hm
    rcases hm with hm | hm
    · rw [if_pos hm.symm] at h
      omega
    · have h2 : countNl cs = 0 := by omega
      exact ih h2 hm

theorem countNl_escapeQuotes (f : List Char) :
    countNl (escapeQuotes f) = countNl f := by
  induction f with
  | nil => rfl
  | cons c cs ih =>
    rw [escapeQuotes]
    by_cases hc : c = '"'
    · rw [if_pos hc, countNl, countNl, ih, countNl]
      subst hc
      simp
    · rw [if_neg hc, countNl, ih, countNl]

theorem parseQuoted_nil_eq :
    parseQuoted [] = none := by
  rw [parseQuoted.eq_def]

theorem parseQuoted_cons_ne (c : Char) (t : List Char) (hc : c ≠ '"') :
    parseQuoted (c :: t) = (parseQuoted t).map fun p => (c :: p.1, p.2) := by
  rw [parseQuoted.eq_def]
  simp only [if_neg hc]

theorem parseQuoted_decomp :
    ∀ (n : Nat) (cs : List Char), cs.length ≤ n →
      ∀ (f rest : List Char), parseQuoted cs = some (f, rest) →
        cs = escapeQuotes f ++ '"' :: rest := by
  intro n
  induction n with
  | zero =>
    intro cs hlen f rest hp
    have hnil : cs = [] := by
      cases cs with
      | nil => rfl
      | cons c t => simp at hlen
    subst hnil
    rw [parseQuoted_nil_eq] at hp
    exact Option.noConfusion hp
  | succ n ih =>
    intro cs hlen f rest hp
    match cs with
    | [] =>
      rw [parseQuoted_nil_eq] at hp
      exact Option.noConfusion hp
    | c :: t =>
      by_cases hc : c = '"'
      · subst hc
        match t with
        | [] =>
          rw [show parseQuoted ['"'] = some ([], []) from rfl] at hp
          injection hp with hp
          injection hp with h1 h2
          subst h1
          subst h2
          rfl
        | c2 :: t2 =>
          by_cases hc2 : c2 = '"'
          · subst hc2
            rw [show parseQuoted ('"' :: '"' :: t2) =
              (parseQuoted t2).map fun p => ('"' :: p.1, p.2) from rfl]
              at hp
            cases hpq : parseQuoted t2 with
            | none => rw [hpq] at hp; exact absurd hp (by simp)
            | some p =>
              rw [hpq] at hp
              obtain ⟨f2, r2⟩ := p
              simp only [Option.map_some'] at hp
              injection hp with hp
              injection hp with h1 h2
              subst h2
              have ht2 := ih t2 (by simp at hlen; omega) f2 r2 hpq
              rw [← h1, escapeQuotes]
              simp only [reduceIte]
              rw [ht2]
              simp
          · rw [show parseQuoted ('"' :: c2 :: t2) =
              (if c2 = '"' then
                (parseQuoted t2).map fun p => ('"' :: p.1, p.2)
              else some ([], c2 :: t2)) from rfl, if_neg hc2] at hp
            injection hp with hp
            injection hp with h1 h2
            subst h1
            subst h2
            rfl
      · rw [parseQuoted_cons_ne c t hc] at hp
        cases hpq : parseQuoted t with
        | none => rw [hpq] at hp; exact absurd hp (by simp)
        | some p =>
          rw [hpq] at hp
          obtain ⟨f2, r2⟩ := p
          simp only [Option.map_some'] at hp
          injection hp with hp
          injection hp with h1 h2
          subst h2
          have ht := ih t (by simp at hlen; omega) f2 r2 hpq
          rw [← h1, escapeQuotes, if_neg hc, List.cons_append, ← ht]

theorem takeUnquoted_decomp :
    ∀ cs : List Char,
      cs = (takeUnquoted cs).1 ++ (takeUnquoted cs).2 ∧
      '\n' ∉ (takeUnquoted cs).1 := by
  intro cs
  induction cs with
  | nil => exact ⟨rfl, by simp [takeUnquoted]⟩
  | cons c t ih =>
    rw [takeUnquoted]
    by_cases hc : c = ',' ∨ c = '\n'
    · rw [if_pos hc]
      exact ⟨rfl, by simp⟩
    · rw [if_neg hc]
      refine ⟨?_, ?_⟩
      · show c :: t = (c :: (takeUnquoted t).1) ++ (takeUnquoted t).2
        rw [List.cons_append, ← ih.1]
      · intro hm
        rw [List.mem_cons] at hm
        rcases hm with hm | hm
        · exact hc (Or.inr hm.symm)
        · exact ih.2 hm

theorem countNl_escFieldChars (f : List Char) :
    countNl (escFieldChars f) = countNl f := by
  rw [escFieldChars]
  by_cases h : f.any isCsvSpecial
  · rw [if_pos h]
    rw [countNl, countNl_append, countNl_escapeQuotes, countNl, countNl]
    simp
  · rw [if_neg h]

theorem countNl_rowChars_nlfree :
    ∀ fs : List (List Char), (∀ f ∈ fs, countNl f = 0) →
      countNl (rowChars fs) = 1 := by
  intro fs
  induction fs with
  | nil => intro _; decide
  | cons f fs ih =>
    intro h
    match fs with
    | [] =>
      show countNl (escFieldChars f ++ ['\n']) = 1
      rw [countNl_append, countNl_escFieldChars, h f (by simp)]
      decide
    | g :: gs =>
      show countNl (escFieldChars f ++ ',' :: rowChars (g :: gs)) = 1
      rw [countNl_append, countNl_escFieldChars, h f (by simp), countNl,
        ih (fun x hx => h x (List.mem_cons_of_mem f hx))]
      simp

theorem getLast?_rowChars :
    ∀ fs : List (List Char), (rowChars fs).getLast? = some '\n' := by
  intro fs
  induction fs with
  | nil => rfl
  | cons f fs ih =>
    match fs with
    | [] =>
      show (escFieldChars f ++ ['\n']).getLast? = some '\n'
      rw [List.getLast?_append]
      rfl
    | g :: gs =>
      show (escFieldChars f ++ ',' :: rowChars (g :: gs)).getLast? =
        some '\n'
      rw [List.getLast?_append]
      have : (',' :: rowChars (g :: gs)).getLast? = some '\n' := by
        have h2 : (',' :: rowChars (g :: gs) : List Char) =
            [','] ++ rowChars (g :: gs) := rfl
        rw [h2, List.getLast?_append, ih]
        rfl
      rw [this]
      rfl

theorem countNl_csvChars_nlfree :
    ∀ rows : List (List (List Char)),
      (∀ r ∈ rows, ∀ f ∈ r, countNl f = 0) →
      countNl (csvChars rows) = rows.length := by
  intro rows
  induction rows with
  | nil => intro _; rfl
  | cons r rs ih =>
    intro h
    have hr : csvChars (r :: rs) = rowChars r ++ csvChars rs := by
      rw [csvChars, List.map_cons, List.flatten_cons]
      rfl
    rw [hr, countNl_append, countNl_rowChars_nlfree r (h r (by simp)),
      ih (fun x hx => h x (List.mem_cons_of_mem r hx))]
    rw [List.length_cons]
    omega

theorem csvChars_getLast? :
    ∀ (r : List (List Char)) (rs : List (List (List Char))),
      (csvChars (r :: rs)).getLast? = some '\n' := by
  intro r rs
  induction rs generalizing r with
  | nil =>
    show (rowChars r ++ csvChars []).getLast? = some '\n'
    rw [show csvChars [] = [] from rfl, List.append_nil]
    exact getLast?_rowChars r
  | cons s ss ih =>
    show (rowChars r ++ csvChars (s :: ss)).getLast? = some '\n'
    rw [List.getLast?_append, ih s]
    rfl

/-- The fast row count of a written table is the number of data rows,
provided no cell embeds a newline. -/
theorem fastRowCount_writeTable {α : Type} (header : List String)
    (toCells : α → List String) (l : List α)
    (hh : ∀ c ∈ header, countNl c.data = 0)
    (hc : ∀ x ∈ l, ∀ c ∈ toCells x, countNl c.data = 0) :
    fastRowCount (writeTable header toCells l) = l.length := by
  rw [writeTable, writeCsv, fastRowCount, string_mk_data, lineCountChars]
  have hcells : ∀ r ∈ ((header :: l.map toCells).map fun r =>
      r.map String.data), ∀ f ∈ r, countNl f = 0 := by
    intro r hr f hf
    rw [List.mem_map] at hr
    obtain ⟨row, hrow, hr⟩ := hr
    subst hr
    rw [List.mem_map] at hf
    obtain ⟨c, hcm, hf⟩ := hf
    subst hf
    rw [List.mem_cons] at hrow
    rcases hrow with hrow | hrow
    · subst hrow
      exact hh c hcm
    · rw [List.mem_map] at hrow
      obtain ⟨x, hx, hrow⟩ := hrow
      subst hrow
      exact hc x hx c hcm
  rw [countNl_csvChars_nlfree _ hcells]
  have hlast :
      (csvChars ((header :: l.map toCells).map fun r =>
        r.map String.data)).getLast? = some '\n' := by
    rw [List.map_cons]
    exact csvChars_getLast? _ _
  rw [hlast]
  simp

/-! ## Lazy feed (modelled from the spec, section 4.3) -/

/-- Modelled from the spec: the lazy feed retains only the directory's
path/member descriptors; each table is parsed on first access. -/
structure LazyGtfsFeed where
  dir : GtfsDir
deriving DecidableEq

/-- Modelled from the spec: lazy open stats each recognized file; the
five required tables must be present (their content is not parsed). -/
def lazyOpen (d : GtfsDir) : Option LazyGtfsFeed :=
  if d.agency.isSome && d.stops.isSome && d.routes.isSome &&
      d.trips.isSome && d.stop_times.isSome then
    some ⟨d⟩
  else none

/-- Lazy query: parse the table on access (same parser as eager). -/
def LazyGtfsFeed.agencies (lz : LazyGtfsFeed) : Option (List Agency) :=
  loadReq agencyOfRow lz.dir.agency

def LazyGtfsFeed.stops (lz : LazyGtfsFeed) : Option (List Stop) :=
  loadReq stopOfRow lz.dir.stops

def LazyGtfsFeed.routes (lz : LazyGtfsFeed) : Option (List Route) :=
  loadReq routeOfRow lz.dir.routes

def LazyGtfsFeed.trips (lz : LazyGtfsFeed) : Option (List Trip) :=
  loadReq tripOfRow lz.dir.trips

def LazyGtfsFeed.stop_times (lz : LazyGtfsFeed) :
    Option (List StopTime) :=
  loadReq stopTimeOfRow lz.dir.stop_times

def LazyGtfsFeed.calendars (lz : LazyGtfsFeed) :
    Option (List Calendar) :=
  loadOpt calendarOfRow lz.dir.calendar

def LazyGtfsFeed.calendar_dates (lz : LazyGtfsFeed) :
    Option (List CalendarDate) :=
  loadOpt calendarDateOfRow lz.dir.calendar_dates

def LazyGtfsFeed.shapes (lz : LazyGtfsFeed) : Option (List Shape) :=
  (loadOpt shapeRowOfRow lz.dir.shapes).map groupShapes

/-- Modelled from the spec: the count of an unparsed table is the fast
line count minus one for the header. -/
def LazyGtfsFeed.agency_count (lz : LazyGtfsFeed) : Nat :=
  match lz.dir.agency with
  | none => 0
  | some t => fastRowCount t

def LazyGtfsFeed.stop_count (lz : LazyGtfsFeed) : Nat :=
  match lz.dir.stops with
  | none => 0
  | some t => fastRowCount t

def LazyGtfsFeed.route_count (lz : LazyGtfsFeed) : Nat :=
  match lz.dir.routes with
  | none => 0
  | some t => fastRowCount t

def LazyGtfsFeed.trip_count (lz : LazyGtfsFeed) : Nat :=
  match lz.dir.trips with
  | none => 0
  | some t => fastRowCount t

def LazyGtfsFeed.stop_time_count (lz : LazyGtfsFeed) : Nat :=
  match lz.dir.stop_times with
  | none => 0
  | some t => fastRowCount t

/-- Modelled from the spec: materialize parses every table of the lazy
feed's directory into an eager feed. -/
def LazyGtfsFeed.materialize (lz : LazyGtfsFeed) : Option GtfsFeed :=
  eagerLoad lz.dir

/-- No cell of the feed's serialized rows embeds a newline character. -/
def nlFreeCell (s : String) : Bool := countNl s.data == 0

def nlFreeRow (r : List String) : Bool := r.all nlFreeCell

def NlFreeFeed (f : GtfsFeed) : Bool :=
  (f.agencies.all fun a => nlFreeRow a.toCells) &&
  (f.stops.all fun s => nlFreeRow s.toCells) &&
  (f.routes.all fun r => nlFreeRow r.toCells) &&
  (f.trips.all fun t => nlFreeRow t.toCells) &&
  (f.stop_times.all fun st => nlFreeRow st.toCells) &&
  (f.calendars.all fun c => nlFreeRow c.toCells) &&
  (f.calendar_dates.all fun cd => nlFreeRow cd.toCells) &&
  ((shapeRows f.shapes).all fun pr => nlFreeRow (shapeRowCells pr))

theorem nlFree_cells {α : Type} (toCells : α → List String)
    (l : List α) (h : (l.all fun x => nlFreeRow (toCells x)) = true) :
    ∀ x ∈ l, ∀ c ∈ toCells x, countNl c.data = 0 := by
  intro x hx c hc
  rw [List.all_eq_true] at h
  have h2 := h x hx
  rw [nlFreeRow, List.all_eq_true] at h2
  have h3 := h2 c hc
  rw [nlFreeCell, beq_iff_eq] at h3
  exact h3

theorem lazyCounts_writeFeedDir (f : GtfsFeed)
    (hn : NlFreeFeed f = true) :
    (LazyGtfsFeed.mk (writeFeedDir f)).agency_count = f.agency_count ∧
    (LazyGtfsFeed.mk (writeFeedDir f)).stop_count = f.stop_count ∧
    (LazyGtfsFeed.mk (writeFeedDir f)).route_count = f.route_count ∧
    (LazyGtfsFeed.mk (writeFeedDir f)).trip_count = f.trip_count ∧
    (LazyGtfsFeed.mk (writeFeedDir f)).stop_time_count =
      f.stop_time_count := by
  simp only [NlFreeFeed, Bool.and_eq_true] at hn
  obtain ⟨⟨⟨⟨⟨⟨⟨h1, h2⟩, h3⟩, h4⟩, h5⟩, h6⟩, h7⟩, h8⟩ := hn
  refine ⟨?_, ?_, ?_, ?_, ?_⟩
  · show fastRowCount
      (writeTable agencyHeader Agency.toCells f.agencies) =
      f.agencies.length
    exact fastRowCount_writeTable _ _ _ (by decide)
      (nlFree_cells Agency.toCells f.agencies h1)
  · show fastRowCount (writeTable stopsHeader Stop.toCells f.stops) =
      f.stops.length
    exact fastRowCount_writeTable _ _ _ (by decide)
      (nlFree_cells Stop.toCells f.stops h2)
  · show fastRowCount (writeTable routesHeader Route.toCells f.routes) =
      f.routes.length
    exact fastRowCount_writeTable _ _ _ (by decide)
      (nlFree_cells Route.toCells f.routes h3)
  · show fastRowCount (writeTable tripsHeader Trip.toCells f.trips) =
      f.trips.length
    exact fastRowCount_writeTable _ _ _ (by decide)
      (nlFree_cells Trip.toCells f.trips h4)
  · show fastRowCount
      (writeTable stopTimesHeader StopTime.toCells f.stop_times) =
      f.stop_times.length
    exact fastRowCount_writeTable _ _ _ (by decide)
      (nlFree_cells StopTime.toCells f.stop_times h5)

/-- A directory whose `stops.txt` has a quoted field embedding a
newline: one record, but two text lines after the header. -/
def cexDirC2 : GtfsDir :=
  { agency :=
      some "agency_id,agency_name,agency_url,agency_timezone\na1,A,u,tz\n",
    stops := some "stop_id,stop_name,stop_lat,stop_lon\ns1,\"a\nb\",1.0,2.0\n",
    routes :=
      some "route_id,route_short_name,route_long_name,route_type\nr1,1,L,3\n",
    trips := some "route_id,service_id,trip_id,trip_headsign\nr1,sv,t1,H\n",
    stop_times :=
      some "trip_id,arrival_time,departure_time,stop_id,stop_sequence\nt1,8:00:00,8:00:00,s1,1\n" }

/-- C2: the claim that the lazy and the eager feed return equal values
for every count property on every directory is refuted: on `cexDirC2`
both feeds open, the eager `stop_count` is 1 (one RFC 4180 record) but
the lazy `stop_count` — the fast line count minus one of the unparsed
table — is 2, because the record's quoted field embeds a newline. -/
theorem lazy_eager_claim_cex :
    (eagerLoad cexDirC2).map GtfsFeed.stop_count = some 1 ∧
    (lazyOpen cexDirC2).map LazyGtfsFeed.stop_count = some 2 := by
  constructor
  · decide
  · decide

/-- C2 (amended): over a directory written from a well-formed feed none
of whose cells embeds a newline, the lazy feed and the eager feed agree
on every query of the shared surface (agencies, stops, routes, trips,
stop_times, calendars, calendar_dates, shapes) and on every count
property (agency_count, stop_count, route_count, trip_count,
stop_time_count). -/
theorem lazy_eager_equiv (f : GtfsFeed) (hv : ValidFeed f)
    (hn : NlFreeFeed f = true) :
    ∃ lz, lazyOpen (writeFeedDir f) = some lz ∧
      eagerLoad (writeFeedDir f) = some f ∧
      lz.agencies = some f.agencies ∧
      lz.stops = some f.stops ∧
      lz.routes = some f.routes ∧
      lz.trips = some f.trips ∧
      lz.stop_times = some f.stop_times ∧
      lz.calendars = some f.calendars ∧
      lz.calendar_dates = some f.calendar_dates ∧
      lz.shapes = some f.shapes ∧
      lz.agency_count = f.agency_count ∧
      lz.stop_count = f.stop_count ∧
      lz.route_count = f.route_count ∧
      lz.trip_count = f.trip_count ∧
      lz.stop_time_count = f.stop_time_count := by
  obtain ⟨hstp, hcal, hcd, hshp, hchain⟩ := hv
  obtain ⟨hc1, hc2, hc3, hc4, hc5⟩ := lazyCounts_writeFeedDir f hn
  refine ⟨⟨writeFeedDir f⟩, rfl,
    eagerLoad_writeFeedDir f ⟨hstp, hcal, hcd, hshp, hchain⟩,
    wfd_agencies f, wfd_stops f hstp, wfd_routes f, wfd_trips f,
    wfd_stop_times f, wfd_calendars f hcal, wfd_calendar_dates f hcd,
    ?_, hc1, hc2, hc3, hc4, hc5⟩
  show (loadOpt shapeRowOfRow (writeFeedDir f).shapes).map groupShapes =
    some f.shapes
  rw [wfd_shaperows f, Option.map_some',
    groupShapes_shapeRows f.shapes hshp hchain]

/-- Witness for C2's amended statement at the S1 sample feed. -/
theorem lazy_eager_equiv_witness :
    ∃ lz, lazyOpen (writeFeedDir sampleFeed) = some lz ∧
      eagerLoad (writeFeedDir sampleFeed) = some sampleFeed ∧
      lz.agencies = some sampleFeed.agencies ∧
      lz.stops = some sampleFeed.stops ∧
      lz.routes = some sampleFeed.routes ∧
      lz.trips = some sampleFeed.trips ∧
      lz.stop_times = some sampleFeed.stop_times ∧
      lz.calendars = some sampleFeed.calendars ∧
      lz.calendar_dates = some sampleFeed.calendar_dates ∧
      lz.shapes = some sampleFeed.shapes ∧
      lz.agency_count = sampleFeed.agency_count ∧
      lz.stop_count = sampleFeed.stop_count ∧
      lz.route_count = sampleFeed.route_count ∧
      lz.trip_count = sampleFeed.trip_count ∧
      lz.stop_time_count = sampleFeed.stop_time_count :=
  lazy_eager_equiv sampleFeed
    ⟨by decide, by decide, by decide, by decide, by decide⟩ (by decide)

/-- A directory whose `agency.txt` has a quoted field embedding a
newline: one record, but two text lines after the header. -/
def cexDirC10 : GtfsDir :=
  { agency :=
      some "agency_id,agency_name,agency_url,agency_timezone\na1,\"A\nB\",u,tz\n",
    stops := some "stop_id,stop_name,stop_lat,stop_lon\ns1,S,1.0,2.0\n",
    routes :=
      some "route_id,route_short_name,route_long_name,route_type\nr1,1,L,3\n",
    trips := some "route_id,service_id,trip_id,trip_headsign\nr1,sv,t1,H\n",
    stop_times :=
      some "trip_id,arrival_time,departure_time,stop_id,stop_sequence\nt1,8:00:00,8:00:00,s1,1\n" }

/-- C10: the claim that `materialize()` returns an eager feed whose
count properties equal the lazy feed's is refuted: over `cexDirC10` the
lazy feed opens and reports `agency_count = 2` (fast line count of the
unparsed table), while the materialized eager feed holds the single
parsed agency record, `agency_count = 1`. -/
theorem materialize_claim_cex :
    ((lazyOpen cexDirC10).bind LazyGtfsFeed.materialize).map
        GtfsFeed.agency_count = some 1 ∧
    (lazyOpen cexDirC10).map LazyGtfsFeed.agency_count = some 2 := by
  constructor
  · decide
  · decide

/-- C10 (amended): for a lazy feed over a directory written from a
well-formed feed none of whose cells embeds a newline, `materialize`
returns the eager feed holding the same data, and its `agency_count`,
`stop_count`, `route_count`, `trip_count` and `stop_time_count` equal
the lazy feed's. -/
theorem materialize_counts (f : GtfsFeed) (hv : ValidFeed f)
    (hn : NlFreeFeed f = true) (lz : LazyGtfsFeed)
    (hdir : lz.dir = writeFeedDir f) :
    lz.materialize = some f ∧
    f.agency_count = lz.agency_count ∧
    f.stop_count = lz.stop_count ∧
    f.route_count = lz.route_count ∧
    f.trip_count = lz.trip_count ∧
    f.stop_time_count = lz.stop_time_count := by
  obtain ⟨d⟩ := lz
  simp only at hdir
  subst hdir
  obtain ⟨hc1, hc2, hc3, hc4, hc5⟩ := lazyCounts_writeFeedDir f hn
  exact ⟨eagerLoad_writeFeedDir f hv, hc1.symm, hc2.symm, hc3.symm,
    hc4.symm, hc5.symm⟩

/-- Witness for C10's amended statement at the S1 sample feed. -/
theorem materialize_counts_witness :
    (LazyGtfsFeed.mk (writeFeedDir sampleFeed)).materialize =
        some sampleFeed ∧
    sampleFeed.agency_count =
      (LazyGtfsFeed.mk (writeFeedDir sampleFeed)).agency_count ∧
    sampleFeed.stop_count =
      (LazyGtfsFeed.mk (writeFeedDir sampleFeed)).stop_count ∧
    sampleFeed.route_count =
      (LazyGtfsFeed.mk (writeFeedDir sampleFeed)).route_count ∧
    sampleFeed.trip_count =
      (LazyGtfsFeed.mk (writeFeedDir sampleFeed)).trip_count ∧
    sampleFeed.stop_time_count =
      (LazyGtfsFeed.mk (writeFeedDir sampleFeed)).stop_time_count :=
  materialize_counts sampleFeed
    ⟨by decide, by decide, by decide, by decide, by decide⟩ (by decide)
    ⟨writeFeedDir sampleFeed⟩ rfl

/-! ## XML reader and TXC string parsing (modelled from the spec) -/

/-- Modelled from the spec: one XML reader event; names are local names
with the namespace prefix stripped. -/
inductive XmlEvent where
  | startElement (name : String) (attrs : List (String × String))
  | endElement (name : String)
  | text (content : String)
deriving DecidableEq

def isXmlWs (c : Char) : Bool :=
  c = ' ' || c = '\t' || c = '\n' || c = '\r'

def skipWsChars : List Char → List Char
  | [] => []
  | c :: t => if isXmlWs c then skipWsChars t else c :: t

def isNameChar (c : Char) : Bool :=
  c.isAlphanum || c = '_' || c = '-' || c = '.' || c = ':'

/-- Take a maximal run of name characters. -/
def takeName : List Char → List Char × List Char
  | [] => ([], [])
  | c :: t =>
    if isNameChar c then
      let p := takeName t
      (c :: p.1, p.2)
    else ([], c :: t)

/-- Strip a namespace prefix: keep the part after the last colon. -/
def localChars (n : List Char) : List Char :=
  (splitOnChar ':' n).getLastD n

/-- Take an attribute value up to the closing double quote. -/
def takeAttrVal : List Char → Option (List Char × List Char)
  | [] => none
  | c :: t =>
    if c = '"' then some ([], t)
    else (takeAttrVal t).map fun p => (c :: p.1, p.2)

/-- Parse the attribute list of a tag, stopping before `>`, `/` or `?`. -/
def parseAttrs : Nat → List Char →
    Option (List (String × String) × List Char)
  | 0, _ => none
  | fuel + 1, cs =>
    match skipWsChars cs with
    | [] => none
    | c :: t =>
      if c = '>' ∨ c = '/' ∨ c = '?' then some ([], c :: t)
      else
        match takeName (c :: t) with
        | ([], _) => none
        | (n, r) =>
          match skipWsChars r with
          | '=' :: r2 =>
            match skipWsChars r2 with
            | '"' :: r3 =>
              match takeAttrVal r3 with
              | none => none
              | some (v, r4) =>
                (parseAttrs fuel r4).map fun p =>
                  ((⟨localChars n⟩, ⟨v⟩) :: p.1, p.2)
            | _ => none
          | _ => none

/-- Skip to the end of an XML prolog or processing instruction. -/
def skipPrologEnd : Nat → List Char → Option (List Char)
  | 0, _ => none
  | _ + 1, [] => none
  | _ + 1, '?' :: '>' :: r => some r
  | fuel + 1, _ :: t => skipPrologEnd fuel t

/-- Take character data up to the next tag opener. -/
def takeText : List Char → List Char × List Char
  | [] => ([], [])
  | c :: t =>
    if c = '<' then ([], c :: t)
    else
      let p := takeText t
      (c :: p.1, p.2)

/-- Modelled from the spec: the XML reader loop. The stack holds the
open elements; tags must balance, and non-whitespace character data
outside any element is malformed (`none`). -/
def scanAux : Nat → List Char → List String → List XmlEvent →
    Option (List XmlEvent)
  | 0, _, _, _ => none
  | fuel + 1, cs, stack, acc =>
    match cs with
    | [] => if stack = [] then some acc.reverse else none
    | '<' :: t =>
      match t with
      | '?' :: t2 =>
        match skipPrologEnd fuel t2 with
        | none => none
        | some r => scanAux fuel r stack acc
      | '/' :: t2 =>
        match takeName t2 with
        | ([], _) => none
        | (n, r) =>
          match skipWsChars r with
          | '>' :: r2 =>
            match stack with
            | [] => none
            | top :: rest =>
              if top = (⟨localChars n⟩ : String) then
                scanAux fuel r2 rest (XmlEvent.endElement top :: acc)
              else none
          | _ => none
      | _ =>
        match takeName t with
        | ([], _) => none
        | (n, r) =>
          match parseAttrs fuel r with
          | none => none
          | some (attrs, r2) =>
            match r2 with
            | '>' :: r3 =>
              scanAux fuel r3 ((⟨localChars n⟩ : String) :: stack)
                (XmlEvent.startElement ⟨localChars n⟩ attrs :: acc)
            | '/' :: '>' :: r3 =>
              scanAux fuel r3 stack
                (XmlEvent.endElement ⟨localChars n⟩ ::
                  XmlEvent.startElement ⟨localChars n⟩ attrs :: acc)
            | _ => none
    | c :: t =>
      if stack = [] then
        if isXmlWs c then scanAux fuel t stack acc else none
      else
        match takeText (c :: t) with
        | (txt, r) => scanAux fuel r stack (XmlEvent.text ⟨txt⟩ :: acc)

/-- Modelled from the spec: scan a string into XML events; `none` on
malformed XML, an empty event stream on empty input. -/
def scanXml (s : String) : Option (List XmlEvent) :=
  scanAux (s.data.length + 1) s.data [] []

def emptyTxcDocument : TxcDocument :=
  { schema_version := "", operators := [], services := [],
    stop_points := [], journey_pattern_sections := [],
    vehicle_journeys := [] }

def lookupAttr (attrs : List (String × String)) (name : String) :
    Option String :=
  match attrs.find? (fun p => p.1 == name) with
  | some p => some p.2
  | none => none

def emptyTxcService : TxcService :=
  { service_code := "", lines := [], operator_ref := "",
    start_date := ⟨2000, 1, 1⟩,
    operating_profile := { regular_day_type := .mondayToFriday },
    journey_patterns := [] }

/-- Rewrite the last element of a list, if any. -/
def updLast {α : Type} (f : α → α) : List α → List α
  | [] => []
  | [a] => [f a]
  | a :: rest => a :: updLast f rest

/-- The TXC parser's event-fold state: the document built so far and
the current element path (innermost first). -/
structure TxcParseState where
  doc : TxcDocument
  path : List String

/-- Modelled from the spec: one step of the TXC parser. It scans for
the top-level collections and appends an entity per member element;
identifying child text (codes, names) fills the last appended entity.
Unknown elements are ignored. -/
def txcStep (st : TxcParseState) (ev : XmlEvent) : TxcParseState :=
  match ev with
  | .startElement n attrs =>
    let doc := st.doc
    let doc :=
      if st.path = [] ∧ n = "TransXChange" then
        { doc with schema_version :=
            (lookupAttr attrs "SchemaVersion").getD "" }
      else if n = "Operator" ∧ "Operators" ∈ st.path then
        { doc with operators := doc.operators ++
            [{ id := (lookupAttr attrs "id").getD "", code := "" }] }
      else if (n = "StopPoint" ∨ n = "AnnotatedStopPointRef") ∧
          "StopPoints" ∈ st.path then
        { doc with stop_points := doc.stop_points ++
            [{ atco_code := "" }] }
      else if n = "Service" ∧ "Services" ∈ st.path then
        { doc with services := doc.services ++ [emptyTxcService] }
      else if n = "VehicleJourney" ∧ "VehicleJourneys" ∈ st.path then
        { doc with vehicle_journeys := doc.vehicle_journeys ++
            [{ code := "", departure_time := 0,
               journey_pattern_ref := "", service_ref := "",
               line_ref := "", operator_ref := "" }] }
      else if n = "JourneyPatternSection" ∧
          "JourneyPatternSections" ∈ st.path then
        { doc with journey_pattern_sections :=
            doc.journey_pattern_sections ++
              [{ id := (lookupAttr attrs "id").getD "", links := [] }] }
      else doc
    { doc := doc, path := n :: st.path }
  | .endElement _ => { st with path := st.path.tail }
  | .text s =>
    match st.path with
    | "ServiceCode" :: _ =>
      let svs := updLast (fun sv => { sv with service_code := s })
        st.doc.services
      { st with doc := { st.doc with services := svs } }
    | "OperatorShortName" :: _ =>
      let ops := updLast (fun op => { op with short_name := some s })
        st.doc.operators
      { st with doc := { st.doc with operators := ops } }
    | "AtcoCode" :: _ =>
      let sps := updLast (fun sp => { sp with atco_code := s })
        st.doc.stop_points
      { st with doc := { st.doc with stop_points := sps } }
    | "StopPointRef" :: "AnnotatedStopPointRef" :: _ =>
      let sps := updLast (fun sp => { sp with atco_code := s })
        st.doc.stop_points
      { st with doc := { st.doc with stop_points := sps } }
    | _ => st

/-- Fold the event stream into a document. -/
def parseTxcEvents (evs : List XmlEvent) : TxcDocument :=
  (evs.foldl txcStep { doc := emptyTxcDocument, path := [] }).doc

/-- Modelled from the spec: parse TXC from string content. An empty
event stream — produced by empty input — is an empty document, and
unrecognizable (malformed) XML is treated the same way. -/
def TxcDocument.from_string (s : String) : TxcDocument :=
  match scanXml s with
  | none => emptyTxcDocument
  | some evs => parseTxcEvents evs

/-- C5: for every input string whose content is empty or is not
syntactically valid XML (the scanner yields no event stream), TXC
parsing returns a document with `operator_count = 0`,
`service_count = 0` and `schema_version` equal to the empty string. -/
theorem invalid_xml_empty_document (s : String)
    (h : s = "" ∨ scanXml s = none) :
    (TxcDocument.from_string s).operator_count = 0 ∧
    (TxcDocument.from_string s).service_count = 0 ∧
    (TxcDocument.from_string s).schema_version = "" := by
  rcases h with h | h
  · subst h
    exact ⟨rfl, rfl, rfl⟩
  · have he : TxcDocument.from_string s = emptyTxcDocument := by
      unfold TxcDocument.from_string
      rw [h]
    rw [he]
    exact ⟨rfl, rfl, rfl⟩

/-- Witness for C5: the non-XML string of the repository's test (the
scanner rejects it) and the empty string. -/
theorem invalid_xml_empty_document_witness :
    (scanXml "this is not valid xml" = none ∧
      (TxcDocument.from_string "this is not valid xml").operator_count
        = 0 ∧
      (TxcDocument.from_string "this is not valid xml").service_count
        = 0 ∧
      (TxcDocument.from_string "this is not valid xml").schema_version
        = "") ∧
    ((TxcDocument.from_string "").operator_count = 0 ∧
      (TxcDocument.from_string "").service_count = 0 ∧
      (TxcDocument.from_string "").schema_version = "") :=
  ⟨⟨by decide,
    invalid_xml_empty_document "this is not valid xml"
      (Or.inr (by decide))⟩,
    invalid_xml_empty_document "" (Or.inl rfl)⟩
